import Mathlib

/-!
Verification of the bpmn-assistant core services against their
natural-language specification.

The development shallowly embeds the Python sources:
  * `src/bpmn_assistant/services/bpmn_modeling_service.py`
    (`create_bpmn`, `_validate_bpmn`, `_validate_element`)
  * `src/bpmn_assistant/services/process_editing/bpmn_editor_service.py`
    (`edit_bpmn`, `_apply_initial_edit`, `_apply_intermediate_edits`,
     `_attempt_process_update_with_retries`, `_update_process`,
     `_get_initial_edit_proposal`, `_get_intermediate_edit_proposal`,
     `_validate_llm_response`)

Python values flowing through this code are JSON-like: dicts, lists,
strings, numbers, booleans, None.  They are embedded as the `Json` type
below.  Python exceptions are embedded as the `PyError` type, and every
Python function that can raise becomes a Lean function into
`Except PyError _`.  The external LLM facade and the five edit transforms
(which live outside the embedded sources) are modelled from the spec as
explicit parameters (`Oracle`, `EditLib`).
-/

/-- Embedded Python exception values.  Each constructor corresponds to an
exception class used (raised or caught) by the embedded code:
`ValueError`, `KeyError`, `TypeError`, `AttributeError` (raised by the
`.get` attribute access in `create_bpmn`'s handler), `ProcessException`
(the structural-edit error from `bpmn_assistant.core.exceptions`), and
plain `Exception`.  All of them are subclasses of Python's `Exception`,
so a bare `except Exception` catches every constructor. -/
inductive PyError where
  | valueError (msg : String)
  | keyError (key : String)
  | typeError (msg : String)
  | attributeError (msg : String)
  | processException (msg : String)
  | exception (msg : String)
deriving DecidableEq, Repr

/-- `except ValueError` catches exactly this. -/
def PyError.isValueError : PyError → Bool
  | .valueError _ => true
  | _ => false

/-- `except ProcessException` catches exactly this. -/
def PyError.isProcessException : PyError → Bool
  | .processException _ => true
  | _ => false

/-- JSON-like Python values: `None`, booleans, integers, strings, lists
and dicts (dicts as association lists in insertion order; a genuine
Python dict has no duplicate keys). -/
inductive Json where
  | null
  | bool (b : Bool)
  | num (n : Int)
  | str (s : String)
  | arr (xs : List Json)
  | obj (fields : List (String × Json))
deriving Repr

mutual

/-- Python `==` on JSON-like values (dict comparison here is on the
association list in order; the embedded code only ever compares strings
against strings or against values of a different shape). -/
def jsonBeq : Json → Json → Bool
  | .null, .null => true
  | .bool a, .bool b => a == b
  | .num a, .num b => a == b
  | .str a, .str b => a == b
  | .arr a, .arr b => jsonListBeq a b
  | .obj a, .obj b => jsonFieldsBeq a b
  | _, _ => false

def jsonListBeq : List Json → List Json → Bool
  | [], [] => true
  | x :: xs, y :: ys => jsonBeq x y && jsonListBeq xs ys
  | _, _ => false

def jsonFieldsBeq : List (String × Json) → List (String × Json) → Bool
  | [], [] => true
  | (k, v) :: xs, (k', v') :: ys => k == k' && jsonBeq v v' && jsonFieldsBeq xs ys
  | _, _ => false

end

instance : BEq Json := ⟨jsonBeq⟩

/-- A single-quote character, used to build Python error-message and
`repr` strings. -/
def squote : String := String.singleton (Char.ofNat 39)

/-- Wrap a string in single quotes (as Python `repr` does for `str`). -/
def quoted (s : String) : String := squote ++ s ++ squote

/-- Comma-separated join, as inside Python list/dict `repr`. -/
def joinComma : List String → String
  | [] => ""
  | [x] => x
  | x :: rest => x ++ ", " ++ joinComma rest

mutual

/-- Python `repr` of a JSON-like value (as used inside f-strings for
nested values).  Strings are wrapped in single quotes; `None`, `True`,
`False` and integers print the Python way. -/
def pyRepr : Json → String
  | .null => "None"
  | .bool true => "True"
  | .bool false => "False"
  | .num n => toString n
  | .str s => quoted s
  | .arr xs => "[" ++ joinComma (pyReprList xs) ++ "]"
  | .obj fs => "\x7b" ++ joinComma (pyReprFields fs) ++ "\x7d"

def pyReprList : List Json → List String
  | [] => []
  | x :: rest => pyRepr x :: pyReprList rest

def pyReprFields : List (String × Json) → List String
  | [] => []
  | (k, v) :: rest => (quoted k ++ ": " ++ pyRepr v) :: pyReprFields rest

end

/-- Python `str` of a JSON-like value, as interpolated by an f-string:
a top-level string is printed raw, everything else via `repr`. -/
def pyStr : Json → String
  | .str s => s
  | j => pyRepr j

/-- First-match association-list lookup (a Python dict has unique keys,
so first-match agrees with dict lookup on genuine dict values). -/
def lookupField : List (String × Json) → String → Option Json
  | [], _ => none
  | (k, v) :: rest, key => if k == key then some v else lookupField rest key

/-- Python subscript `j[k]` with a string key: dict lookup
(raising `KeyError` for a missing key), `TypeError` for every other
shape. -/
def getItem (j : Json) (k : String) : Except PyError Json :=
  match j with
  | .obj fields =>
    match lookupField fields k with
    | some v => .ok v
    | none => .error (.keyError k)
  | .str _ => .error (.typeError "string indices must be integers")
  | .arr _ => .error (.typeError "list indices must be integers or slices, not str")
  | _ => .error (.typeError "object is not subscriptable")

/-- `needle` occurs as a contiguous substring of `hay`. -/
def substrB (needle hay : String) : Bool :=
  (hay.toList.tails).any (fun t => needle.toList.isPrefixOf t)

/-- Python `k in j` for a string `k`: key membership for dicts,
substring test for strings, element membership for lists, `TypeError`
otherwise. -/
def pyIn (k : String) (j : Json) : Except PyError Bool :=
  match j with
  | .obj fields => .ok (fields.any (fun kv => kv.1 == k))
  | .str s => .ok (substrB k s)
  | .arr xs => .ok (xs.any (fun x => x == Json.str k))
  | _ => .error (.typeError "argument of type is not iterable")

/-- Python `len(j)`: number of keys for dicts, length for lists and
strings, `TypeError` otherwise. -/
def pyLen (j : Json) : Except PyError Nat :=
  match j with
  | .obj fields => .ok fields.length
  | .arr xs => .ok xs.length
  | .str s => .ok s.length
  | _ => .error (.typeError "object has no len")

/-! ## Size lemmas for recursion over nested `Json` values -/

theorem sizeOf_lookupField {fields : List (String × Json)} {k : String} {v : Json}
    (h : lookupField fields k = some v) : sizeOf v < sizeOf (Json.obj fields) := by
  induction fields with
  | nil => simp [lookupField] at h
  | cons kv rest ih =>
    obtain ⟨k', v'⟩ := kv
    simp only [lookupField] at h
    split at h
    · cases h
      simp
      omega
    · have hlt := ih h
      simp at hlt ⊢
      omega

theorem sizeOf_getItem_ok {j : Json} {k : String} {v : Json}
    (h : getItem j k = .ok v) : sizeOf v < sizeOf j := by
  cases j with
  | obj fields =>
    simp only [getItem] at h
    cases hl : lookupField fields k with
    | none => rw [hl] at h; cases h
    | some w => rw [hl] at h; cases h; exact sizeOf_lookupField hl
  | null => simp [getItem] at h
  | bool b => simp [getItem] at h
  | num n => simp [getItem] at h
  | str s => simp [getItem] at h
  | arr xs => simp [getItem] at h

/-! ## Process Validator
(`BpmnModelingService._validate_element` / `_validate_bpmn`) -/

/-- Modelled from the spec: `BPMNElementType` (from `bpmn_assistant.core.enums`,
not under `src/`) — the recognized element types of the data model:
task-like (`task`/`userTask`/`serviceTask`), `exclusiveGateway`,
`parallelGateway`. -/
def supportedElements : List String :=
  ["task", "userTask", "serviceTask", "exclusiveGateway", "parallelGateway"]

/-- `supported_elements` as the Python list value appearing in the
unsupported-type error message. -/
def supportedElementsJson : Json := Json.arr (supportedElements.map Json.str)

def msgMissingId (e : Json) : String := "Element is missing an ID: " ++ pyStr e
def msgMissingType (e : Json) : String := "Element is missing a type: " ++ pyStr e
def msgUnsupported (t : Json) : String :=
  "Unsupported element type: " ++ pyStr t ++ ". Supported types: " ++ pyStr supportedElementsJson
def msgTaskLabel (e : Json) : String := "Task element is missing a label: " ++ pyStr e
def msgExLabel (e : Json) : String := "Exclusive gateway is missing a label: " ++ pyStr e
def msgExBranches (e : Json) : String :=
  "Exclusive gateway is missing or has invalid " ++ quoted "branches" ++ ": " ++ pyStr e
def msgInvalidBranch (b : Json) : String := "Invalid branch in exclusive gateway: " ++ pyStr b
def msgParBranches (e : Json) : String :=
  "Parallel gateway is missing or has invalid " ++ quoted "branches" ++ ": " ++ pyStr e

/-- The per-branch loop of `_validate_element` for an `exclusiveGateway`:
`for branch in element["branches"]: if "condition" not in branch or
"path" not in branch: raise ...`. -/
def checkExBranchShape : List Json → Except PyError Unit
  | [] => .ok ()
  | b :: rest =>
    match pyIn "condition" b with
    | .error e => .error e
    | .ok c =>
      if !c then .error (.exception (msgInvalidBranch b))
      else
        match pyIn "path" b with
        | .error e => .error e
        | .ok p =>
          if !p then .error (.exception (msgInvalidBranch b))
          else checkExBranchShape rest

/-- The `"branches" not in element or not isinstance(element["branches"], list)`
check shared by both gateway cases of `_validate_element`; on success
returns the branches list. -/
def getBranchesList (element : Json) (msg : Json → String) :
    Except PyError (List Json) :=
  match pyIn "branches" element with
  | .error e => .error e
  | .ok bIn =>
    if !bIn then .error (.exception (msg element))
    else
      match getItem element "branches" with
      | .error e => .error e
      | .ok (Json.arr bs) => .ok bs
      | .ok _ => .error (.exception (msg element))

/-- `BpmnModelingService._validate_element`.  Checks `id` and `type`
presence, the type against the supported list, `label` for task-like
elements, and `label`/`branches` shape for gateways (including the
per-branch `condition`/`path` key check of an exclusive gateway).
Raises plain `Exception`s, as the source does. -/
def validate_element (element : Json) : Except PyError Unit :=
  match pyIn "id" element with
  | .error e => .error e
  | .ok idIn =>
    if !idIn then .error (.exception (msgMissingId element))
    else
      match pyIn "type" element with
      | .error e => .error e
      | .ok tyIn =>
        if !tyIn then .error (.exception (msgMissingType element))
        else
          match getItem element "type" with
          | .error e => .error e
          | .ok t =>
            if !((supportedElements.map Json.str).any (fun x => t == x)) then
              .error (.exception (msgUnsupported t))
            else if [Json.str "task", Json.str "userTask", Json.str "serviceTask"].any
                (fun x => t == x) then
              match pyIn "label" element with
              | .error e => .error e
              | .ok lIn =>
                if !lIn then .error (.exception (msgTaskLabel element)) else .ok ()
            else if t == Json.str "exclusiveGateway" then
              match pyIn "label" element with
              | .error e => .error e
              | .ok lIn =>
                if !lIn then .error (.exception (msgExLabel element))
                else
                  match getBranchesList element msgExBranches with
                  | .error e => .error e
                  | .ok bs => checkExBranchShape bs
            else if t == Json.str "parallelGateway" then
              match getBranchesList element msgParBranches with
              | .error e => .error e
              | .ok _ => .ok ()
            else .ok ()

/-- `for element in process` when the validated "process" is not a list:
Python iterates the keys of a dict and the characters of a string, each
iterated element being a string `s`.  `_validate_element` always raises
on a string element (either the `id`/`type` substring test fails, or
`element["type"]` raises `TypeError`), and even if it returned, the
subsequent `element["type"] == ...` subscript in `_validate_bpmn` would
raise `TypeError` — so such an iteration never gets past its first
element.  This helper is that first-element step. -/
def validateStrElemStep (s : String) : Except PyError Unit :=
  match validate_element (Json.str s) with
  | .error e => .error e
  | .ok _ => .error (.typeError "string indices must be integers")

/-- Iterating `for branch in branches: self._validate_bpmn(branch)`
(parallel gateway) when `branches` is a dict: each branch is a key
string `k`; `_validate_bpmn(k)` succeeds on an empty string (empty
iteration) and raises on the first character otherwise. -/
def parKeyScan : List String → Except PyError Unit
  | [] => .ok ()
  | k :: rest =>
    match k.data with
    | [] => parKeyScan rest
    | c :: _ => validateStrElemStep (String.singleton c)

mutual

/-- The element loop of `BpmnModelingService._validate_bpmn`:
validate each element, then recurse into `branch["path"]` for an
`exclusiveGateway` and into each `branch` for a `parallelGateway`. -/
def validateElems : List Json → Except PyError Unit
  | [] => .ok ()
  | e :: rest =>
    match validate_element e with
    | .error err => .error err
    | .ok _ =>
      match gatewayRecurse e with
      | .error err => .error err
      | .ok _ => validateElems rest
termination_by l => sizeOf l
decreasing_by
  all_goals simp_wf
  all_goals omega

/-- The two `if element["type"] == ...Gateway` statements in the loop
body of `_validate_bpmn`, recursing into branch paths / branches. -/
def gatewayRecurse (e : Json) : Except PyError Unit :=
  match hT : getItem e "type" with
  | .error err => .error err
  | .ok t =>
    if t == Json.str "exclusiveGateway" then
      match hB : getItem e "branches" with
      | .error err => .error err
      | .ok (Json.arr bs) => exBranchPaths bs
      | .ok (Json.str s) =>
        -- iterating a non-list `branches` (unreachable after
        -- `_validate_element`): each iterated branch is a string, and
        -- `branch["path"]` raises `TypeError`
        if s.data.isEmpty then .ok ()
        else .error (.typeError "string indices must be integers")
      | .ok (Json.obj []) => .ok ()
      | .ok (Json.obj (_ :: _)) => .error (.typeError "string indices must be integers")
      | .ok _ => .error (.typeError "object is not iterable")
    else if t == Json.str "parallelGateway" then
      match hB : getItem e "branches" with
      | .error err => .error err
      | .ok (Json.arr bs) => parBranches bs
      | .ok (Json.str s) =>
        -- iterated branches are one-character strings; `_validate_bpmn`
        -- on a nonempty string raises at its first character
        match s.data with
        | [] => .ok ()
        | c :: _ => validateStrElemStep (String.singleton c)
      | .ok (Json.obj fs) => parKeyScan (fs.map Prod.fst)
      | .ok _ => .error (.typeError "object is not iterable")
    else .ok ()
termination_by sizeOf e
decreasing_by
  all_goals simp_wf
  · have h1 := sizeOf_getItem_ok hB
    simp at h1
    omega
  · have h1 := sizeOf_getItem_ok hB
    simp at h1
    omega

/-- `for branch in element["branches"]: self._validate_bpmn(branch["path"])`. -/
def exBranchPaths : List Json → Except PyError Unit
  | [] => .ok ()
  | b :: rest =>
    match hP : getItem b "path" with
    | .error err => .error err
    | .ok p =>
      match validate_bpmn p with
      | .error err => .error err
      | .ok _ => exBranchPaths rest
termination_by l => sizeOf l
decreasing_by
  all_goals simp_wf
  all_goals try omega
  all_goals (have h1 := sizeOf_getItem_ok hP; omega)

/-- `for branch in element["branches"]: self._validate_bpmn(branch)`. -/
def parBranches : List Json → Except PyError Unit
  | [] => .ok ()
  | b :: rest =>
    match validate_bpmn b with
    | .error err => .error err
    | .ok _ => parBranches rest
termination_by l => sizeOf l
decreasing_by
  all_goals simp_wf
  all_goals omega

/-- `BpmnModelingService._validate_bpmn`.  The argument is a `list` in
every honest call, but recursive calls feed it arbitrary JSON values
(`branch["path"]` / `branch`), so it is embedded over all of `Json`;
iterating a string or dict stops at its first element because
`_validate_element` always raises on a string element (see
`validateStrElemStep`). -/
def validate_bpmn (process : Json) : Except PyError Unit :=
  match process with
  | .arr elems => validateElems elems
  | .str s =>
    match s.data with
    | [] => .ok ()
    | c :: _ => validateStrElemStep (String.singleton c)
  | .obj [] => .ok ()
  | .obj ((k, _) :: _) => validateStrElemStep k
  | _ => .error (.typeError "object is not iterable")
termination_by sizeOf process
decreasing_by
  all_goals simp_wf
  all_goals omega

end

/-! ### Unfolding equations for the validator
(the definitions above recurse by well-founded recursion on `sizeOf`, so
we restate their one-step behaviour as plain rewrite rules). -/

/-- The `exclusiveGateway` arm of `gatewayRecurse`, as a function of the
`element["branches"]` subscript result. -/
def exGatewayBody : Except PyError Json → Except PyError Unit
  | .error err => .error err
  | .ok (Json.arr bs) => exBranchPaths bs
  | .ok (Json.str s) =>
    if s.data.isEmpty then .ok ()
    else .error (.typeError "string indices must be integers")
  | .ok (Json.obj []) => .ok ()
  | .ok (Json.obj (_ :: _)) => .error (.typeError "string indices must be integers")
  | .ok _ => .error (.typeError "object is not iterable")

/-- The `parallelGateway` arm of `gatewayRecurse`, as a function of the
`element["branches"]` subscript result. -/
def parGatewayBody : Except PyError Json → Except PyError Unit
  | .error err => .error err
  | .ok (Json.arr bs) => parBranches bs
  | .ok (Json.str s) =>
    match s.data with
    | [] => .ok ()
    | c :: _ => validateStrElemStep (String.singleton c)
  | .ok (Json.obj fs) => parKeyScan (fs.map Prod.fst)
  | .ok _ => .error (.typeError "object is not iterable")

theorem validate_bpmn_arr (xs : List Json) :
    validate_bpmn (Json.arr xs) = validateElems xs := by
  rw [validate_bpmn.eq_def]

theorem validateElems_nil : validateElems [] = .ok () := by
  rw [validateElems.eq_def]

theorem validateElems_cons (e : Json) (rest : List Json) :
    validateElems (e :: rest) =
      match validate_element e with
      | .error err => .error err
      | .ok _ =>
        match gatewayRecurse e with
        | .error err => .error err
        | .ok _ => validateElems rest := by
  rw [validateElems.eq_def]

theorem gatewayRecurse_eq (e : Json) :
    gatewayRecurse e =
      match getItem e "type" with
      | .error err => .error err
      | .ok t =>
        if t == Json.str "exclusiveGateway" then exGatewayBody (getItem e "branches")
        else if t == Json.str "parallelGateway" then parGatewayBody (getItem e "branches")
        else .ok () := by
  rw [gatewayRecurse.eq_def]
  split
  · simp_all
  rename_i t hT
  rw [hT]
  split
  · split <;> simp_all [exGatewayBody]
  · split
    · split <;> simp_all [parGatewayBody]
    · simp_all

theorem exBranchPaths_nil : exBranchPaths [] = .ok () := by
  rw [exBranchPaths.eq_def]

theorem exBranchPaths_cons (b : Json) (rest : List Json) :
    exBranchPaths (b :: rest) =
      match getItem b "path" with
      | .error err => .error err
      | .ok p =>
        match validate_bpmn p with
        | .error err => .error err
        | .ok _ => exBranchPaths rest := by
  rw [exBranchPaths.eq_2]
  split <;> simp_all

theorem parBranches_nil : parBranches [] = .ok () := by
  rw [parBranches.eq_def]

theorem parBranches_cons (b : Json) (rest : List Json) :
    parBranches (b :: rest) =
      match validate_bpmn b with
      | .error err => .error err
      | .ok _ => parBranches rest := by
  rw [parBranches.eq_def]

theorem gatewayRecurse_nongateway {e t : Json}
    (h : getItem e "type" = .ok t)
    (h1 : (t == Json.str "exclusiveGateway") = false)
    (h2 : (t == Json.str "parallelGateway") = false) :
    gatewayRecurse e = .ok () := by
  rw [gatewayRecurse_eq, h]
  simp [h1, h2]

theorem gatewayRecurse_ex {e : Json} {bs : List Json}
    (h : getItem e "type" = .ok (Json.str "exclusiveGateway"))
    (hB : getItem e "branches" = .ok (Json.arr bs)) :
    gatewayRecurse e = exBranchPaths bs := by
  rw [gatewayRecurse_eq, h, hB]
  have ht : (Json.str "exclusiveGateway" == Json.str "exclusiveGateway") = true := rfl
  simp [ht, exGatewayBody]

theorem gatewayRecurse_par {e : Json} {bs : List Json}
    (h : getItem e "type" = .ok (Json.str "parallelGateway"))
    (hB : getItem e "branches" = .ok (Json.arr bs)) :
    gatewayRecurse e = parBranches bs := by
  rw [gatewayRecurse_eq, h, hB]
  have h1 : (Json.str "parallelGateway" == Json.str "exclusiveGateway") = false := rfl
  have h2 : (Json.str "parallelGateway" == Json.str "parallelGateway") = true := rfl
  simp [h1, h2, parGatewayBody]

/-! ### The elements a validated tree contains

`elemsOfJson` collects the elements `_validate_bpmn` traverses: the
members of the top-level list, recursing into each `branch["path"]` of an
`exclusiveGateway` and each branch of a `parallelGateway`.  It is the
formal reading of "every element of the process tree" used to state
tree-wide invariants. -/

mutual

def elemsOfList : List Json → List Json
  | [] => []
  | e :: rest => e :: (gatewayElems e ++ elemsOfList rest)
termination_by l => sizeOf l
decreasing_by
  all_goals simp_wf
  all_goals omega

def gatewayElems (e : Json) : List Json :=
  match hT : getItem e "type" with
  | .error _ => []
  | .ok t =>
    if t == Json.str "exclusiveGateway" then
      match hB : getItem e "branches" with
      | .ok (Json.arr bs) => exPathElems bs
      | _ => []
    else if t == Json.str "parallelGateway" then
      match hB : getItem e "branches" with
      | .ok (Json.arr bs) => parBranchElems bs
      | _ => []
    else []
termination_by sizeOf e
decreasing_by
  all_goals simp_wf
  · have h1 := sizeOf_getItem_ok hB
    simp at h1
    omega
  · have h1 := sizeOf_getItem_ok hB
    simp at h1
    omega

def exPathElems : List Json → List Json
  | [] => []
  | b :: rest =>
    (match hP : getItem b "path" with
     | .ok p => elemsOfJson p
     | .error _ => []) ++ exPathElems rest
termination_by l => sizeOf l
decreasing_by
  all_goals simp_wf
  all_goals try omega
  all_goals (have h1 := sizeOf_getItem_ok hP; omega)

def parBranchElems : List Json → List Json
  | [] => []
  | b :: rest => elemsOfJson b ++ parBranchElems rest
termination_by l => sizeOf l
decreasing_by
  all_goals simp_wf
  all_goals omega

def elemsOfJson : Json → List Json
  | .arr xs => elemsOfList xs
  | _ => []
termination_by j => sizeOf j
decreasing_by
  all_goals simp_wf
  all_goals omega

end

theorem elemsOfJson_arr (xs : List Json) : elemsOfJson (Json.arr xs) = elemsOfList xs := by
  rw [elemsOfJson.eq_def]

theorem elemsOfList_nil : elemsOfList [] = [] := by
  rw [elemsOfList.eq_def]

theorem elemsOfList_cons (e : Json) (rest : List Json) :
    elemsOfList (e :: rest) = e :: (gatewayElems e ++ elemsOfList rest) := by
  rw [elemsOfList.eq_def]

theorem gatewayElems_eq (e : Json) :
    gatewayElems e =
      match getItem e "type" with
      | .error _ => []
      | .ok t =>
        if t == Json.str "exclusiveGateway" then
          match getItem e "branches" with
          | .ok (Json.arr bs) => exPathElems bs
          | _ => []
        else if t == Json.str "parallelGateway" then
          match getItem e "branches" with
          | .ok (Json.arr bs) => parBranchElems bs
          | _ => []
        else [] := by
  rw [gatewayElems.eq_def]
  split
  · simp_all
  rename_i t hT
  rw [hT]
  split
  · split <;> simp_all
  · split
    · split <;> simp_all
    · simp_all

theorem exPathElems_cons (b : Json) (rest : List Json) :
    exPathElems (b :: rest) =
      (match getItem b "path" with
       | .ok p => elemsOfJson p
       | .error _ => []) ++ exPathElems rest := by
  rw [exPathElems.eq_2]
  split <;> simp_all

theorem parBranchElems_cons (b : Json) (rest : List Json) :
    parBranchElems (b :: rest) = elemsOfJson b ++ parBranchElems rest := by
  rw [parBranchElems.eq_def]

/-! ## Edit Proposal Validator
(`BpmnEditorService._validate_llm_response`) -/

def msgNeedFunctionOrStop : String :=
  "Function call should contain " ++ quoted "function" ++ " and " ++ quoted "arguments" ++
    " keys, or a " ++ quoted "stop" ++ " key."
def msgDeleteNeed : String := "Arguments should contain " ++ quoted "element_id" ++ " key."
def msgDeleteOnly : String := "Arguments should contain only " ++ quoted "element_id" ++ " key."
def msgRedirectNeed : String :=
  "Arguments should contain " ++ quoted "branch_condition" ++ " and " ++ quoted "next_id" ++ " keys."
def msgRedirectOnly : String :=
  "Arguments should contain only " ++ quoted "branch_condition" ++ " and " ++ quoted "next_id" ++ " keys."
def msgAddNeed : String := "Arguments should contain " ++ quoted "element" ++ " key."
def msgOneOfBeforeAfter : String :=
  "Only one of " ++ quoted "before_id" ++ " and " ++ quoted "after_id" ++ " should be provided."
def msgEitherBeforeAfter : String :=
  "Either " ++ quoted "before_id" ++ " or " ++ quoted "after_id" ++ " should be provided."
def msgAddOnly : String :=
  "Arguments should contain only " ++ quoted "element" ++ " and either " ++ quoted "before_id" ++
    " or " ++ quoted "after_id" ++ " keys."
def msgMoveNeed : String := "Arguments should contain " ++ quoted "element_id" ++ " key."
def msgMoveOnly : String :=
  "Arguments should contain only " ++ quoted "element_id" ++ " and either " ++ quoted "before_id" ++
    " or " ++ quoted "after_id" ++ " keys."
def msgUpdateNeed : String := "Arguments should contain " ++ quoted "new_element" ++ " key."
def msgUpdateOnly : String := "Arguments should contain only " ++ quoted "new_element" ++ " key."
def msgFnNotFound (fn : Json) : String :=
  "Function " ++ quoted (pyStr fn) ++ " not found."

/-- The per-verb `elif` chain of `_validate_llm_response`, checking the
`arguments` mapping against the verb's required keys. -/
def checkVerbArgs (fn args : Json) : Except PyError Bool :=
  if fn == Json.str "delete_element" then
    match pyIn "element_id" args with
    | .error e => .error e
    | .ok hasEid =>
      if !hasEid then .error (.valueError msgDeleteNeed)
      else
        match pyLen args with
        | .error e => .error e
        | .ok n => if n > 1 then .error (.valueError msgDeleteOnly) else .ok true
  else if fn == Json.str "redirect_branch" then
    match pyIn "branch_condition" args with
    | .error e => .error e
    | .ok hasBc =>
      if !hasBc then .error (.valueError msgRedirectNeed)
      else
        match pyIn "next_id" args with
        | .error e => .error e
        | .ok hasNi =>
          if !hasNi then .error (.valueError msgRedirectNeed)
          else
            match pyLen args with
            | .error e => .error e
            | .ok n => if n > 2 then .error (.valueError msgRedirectOnly) else .ok true
  else if fn == Json.str "add_element" then
    match pyIn "element" args with
    | .error e => .error e
    | .ok hasEl =>
      if !hasEl then .error (.valueError msgAddNeed)
      else
        match pyIn "before_id" args with
        | .error e => .error e
        | .ok hasB =>
          match pyIn "after_id" args with
          | .error e => .error e
          | .ok hasA =>
            if hasB && hasA then .error (.valueError msgOneOfBeforeAfter)
            else if !hasB && !hasA then .error (.valueError msgEitherBeforeAfter)
            else
              match pyLen args with
              | .error e => .error e
              | .ok n => if n > 2 then .error (.valueError msgAddOnly) else .ok true
  else if fn == Json.str "move_element" then
    match pyIn "element_id" args with
    | .error e => .error e
    | .ok hasEid =>
      if !hasEid then .error (.valueError msgMoveNeed)
      else
        match pyIn "before_id" args with
        | .error e => .error e
        | .ok hasB =>
          match pyIn "after_id" args with
          | .error e => .error e
          | .ok hasA =>
            if hasB && hasA then .error (.valueError msgOneOfBeforeAfter)
            else if !hasB && !hasA then .error (.valueError msgEitherBeforeAfter)
            else
              match pyLen args with
              | .error e => .error e
              | .ok n => if n > 2 then .error (.valueError msgMoveOnly) else .ok true
  else if fn == Json.str "update_element" then
    match pyIn "new_element" args with
    | .error e => .error e
    | .ok hasNe =>
      if !hasNe then .error (.valueError msgUpdateNeed)
      else
        match pyLen args with
        | .error e => .error e
        | .ok n => if n > 1 then .error (.valueError msgUpdateOnly) else .ok true
  else .error (.valueError (msgFnNotFound fn))

/-- `BpmnEditorService._validate_llm_response(response, is_first_edit)`.

Note the faithful translation of the source's guard: when
`is_first_edit` is true and the response contains `"stop"` but lacks
`"function"`, the guard does *not* raise, and the following
`response["function"]` subscript raises an (uncatchable-by-the-caller)
`KeyError` instead of a `ValueError`. -/
def validate_llm_response (response : Json) (is_first_edit : Bool := true) :
    Except PyError Bool :=
  match (if is_first_edit then .ok false else pyIn "stop" response :
      Except PyError Bool) with
  | .error e => .error e
  | .ok earlyStop =>
    if earlyStop then .ok true
    else
      match pyIn "function" response with
      | .error e => .error e
      | .ok hasFn =>
        match (if hasFn then
            match pyIn "arguments" response with
            | .error e => .error e
            | .ok hasArgs => .ok (!hasArgs)
          else (.ok true : Except PyError Bool)) with
        | .error e => .error e
        | .ok leftMissing =>
          match (if leftMissing then
              match pyIn "stop" response with
              | .error e => .error e
              | .ok hasStop => .ok (!hasStop)
            else (.ok false : Except PyError Bool)) with
          | .error e => .error e
          | .ok mustRaise =>
            if mustRaise then .error (.valueError msgNeedFunctionOrStop)
            else
              match getItem response "function" with
              | .error e => .error e
              | .ok fn =>
                match getItem response "arguments" with
                | .error e => .error e
                | .ok args => checkVerbArgs fn args

/-! ## The oracle facade and the Edit Function Library -/

/-- Modelled from the spec: the oracle facade (`LLMFacade`, not under
`src/`): `call(prompt) → structured object | text; any failure …
surfaces as an error`.  A facade behaviour is a function from the index
of the call (the calls of one orchestrator run are strictly sequential)
to its outcome: a returned JSON-like value, or a raised exception.
Prompt contents (built by the external `prepare_prompt`) do not
constrain the behaviour, so indexing by call count quantifies over every
possible facade. -/
def Oracle : Type := Nat → Except PyError Json

/-- Modelled from the spec: the Edit Function Library
(`bpmn_assistant.services.process_editing`, not under `src/`) — five
tree transforms, each taking the process and the keyword-arguments
mapping of the call `edit_functions[fn](process, **args)`, and
returning a fresh tree wrapped as `\x7b"process": tree\x7d` or failing
with a `StructuralError` (`ProcessException`).  The orchestrator
theorems quantify over arbitrary behaviour of these five functions. -/
structure EditLib where
  delete_element : Json → Json → Except PyError Json
  redirect_branch : Json → Json → Except PyError Json
  add_element : Json → Json → Except PyError Json
  move_element : Json → Json → Except PyError Json
  update_element : Json → Json → Except PyError Json

/-! ## Edit Orchestrator (`BpmnEditorService`) -/

/-- `BpmnEditorService._update_process`: look the verb up in the
`edit_functions` dict (`KeyError` for an unknown verb, `TypeError` for
an unhashable one), call it with `(process, **args)` (`TypeError` if
`args` is not a mapping), and return `res["process"]`. -/
def update_process (lib : EditLib) (process edit_proposal : Json) :
    Except PyError Json :=
  match getItem edit_proposal "function" with
  | .error e => .error e
  | .ok fn =>
    match getItem edit_proposal "arguments" with
    | .error e => .error e
    | .ok args =>
      match (match fn with
        | .str "delete_element" => .ok lib.delete_element
        | .str "redirect_branch" => .ok lib.redirect_branch
        | .str "add_element" => .ok lib.add_element
        | .str "move_element" => .ok lib.move_element
        | .str "update_element" => .ok lib.update_element
        | .str s => .error (PyError.keyError s)
        | .arr _ => .error (PyError.typeError "unhashable type: list")
        | .obj _ => .error (PyError.typeError "unhashable type: dict")
        | other => .error (PyError.keyError (pyStr other))
        : Except PyError (Json → Json → Except PyError Json)) with
      | .error e => .error e
      | .ok f =>
        match args with
        | .obj _ =>
          match f process args with
          | .error e => .error e
          | .ok res => getItem res "process"
        | _ => .error (.typeError "argument after ** must be a mapping")

/-- `BpmnEditorService._attempt_process_update_with_retries`, with the
retry budget (`max_retries - attempts` remaining) as the recursion
argument.  `k` is the index of the next facade call.  Result:
`(outcome, next call index, number of apply attempts made)`.
Faithful details: only `ProcessException` is caught; the re-prompt
facade call happens inside the handler (so a facade exception
propagates); a new proposal containing `"stop"` returns the `process`
argument unchanged; the new proposal is *not* re-validated before the
next apply attempt. -/
def attempt_loop (lib : EditLib) (oracle : Oracle) (process : Json) :
    Json → Nat → Nat → Except PyError Json × Nat × Nat
  | _, k, 0 =>
    (.error (.exception "Max number of retries reached. Process not fully edited."), k, 0)
  | proposal, k, rem + 1 =>
    match update_process lib process proposal with
    | .ok t => (.ok t, k, 1)
    | .error e =>
      if e.isProcessException then
        match oracle k with
        | .error fe => (.error fe, k + 1, 1)
        | .ok np =>
          match pyIn "stop" np with
          | .error e2 => (.error e2, k + 1, 1)
          | .ok true => (.ok process, k + 1, 1)
          | .ok false =>
            let r := attempt_loop lib oracle process np (k + 1) rem
            (r.1, r.2.1, r.2.2 + 1)
      else (.error e, k, 1)

/-- `_attempt_process_update_with_retries` with its default
`max_retries = 3`. -/
def attempt_process_update_with_retries (lib : EditLib) (oracle : Oracle)
    (process edit_proposal : Json) (k : Nat) : Except PyError Json × Nat × Nat :=
  attempt_loop lib oracle process edit_proposal k 3

/-- The retry loop of `BpmnEditorService._get_initial_edit_proposal`:
validate the current response (`is_first_edit = true`); on `ValueError`
re-prompt (a facade exception in the handler propagates); any other
exception from the validator (e.g. the `KeyError` on a stop-only first
proposal) propagates uncaught.  Result: `(outcome, next call index,
number of validation attempts made)`. -/
def initial_loop (oracle : Oracle) : Json → Nat → Nat → Except PyError Json × Nat × Nat
  | _, k, 0 => (.error (.exception "Max number of retries reached."), k, 0)
  | response, k, rem + 1 =>
    match validate_llm_response response true with
    | .ok _ => (.ok response, k, 1)
    | .error e =>
      if e.isValueError then
        match oracle k with
        | .error fe => (.error fe, k + 1, 1)
        | .ok r2 =>
          let r := initial_loop oracle r2 (k + 1) rem
          (r.1, r.2.1, r.2.2 + 1)
      else (.error e, k, 1)

/-- `BpmnEditorService._get_initial_edit_proposal` (default
`max_retries = 3`): one facade call before the loop (outside any
`try`, so its exception propagates), then the validation/re-prompt
loop. -/
def get_initial_edit_proposal (oracle : Oracle) (k : Nat) :
    Except PyError Json × Nat × Nat :=
  match oracle k with
  | .error e => (.error e, k + 1, 0)
  | .ok response => initial_loop oracle response (k + 1) 3

/-- `BpmnEditorService._get_intermediate_edit_proposal` (default
`max_retries = 3`): here the facade call sits *inside* the `try`, so a
facade `ValueError` is caught and consumes an attempt, while any other
facade exception propagates.  Validation uses `is_first_edit = false`. -/
def intermediate_loop (oracle : Oracle) : Nat → Nat → Except PyError Json × Nat
  | k, 0 => (.error (.exception "Max number of retries reached."), k)
  | k, rem + 1 =>
    match oracle k with
    | .error e =>
      if e.isValueError then intermediate_loop oracle (k + 1) rem
      else (.error e, k + 1)
    | .ok response =>
      match validate_llm_response response false with
      | .ok _ => (.ok response, k + 1)
      | .error e =>
        if e.isValueError then intermediate_loop oracle (k + 1) rem
        else (.error e, k + 1)

/-- `BpmnEditorService._apply_intermediate_edits`, with the remaining
round budget (`max_num_of_iterations = 7` at the call site) as the
recursion argument: fetch a validated proposal; `"stop"` returns the
current tree; otherwise apply with retries and continue with the
updated tree. -/
def apply_intermediate_edits (lib : EditLib) (oracle : Oracle) :
    Json → Nat → Nat → Except PyError Json × Nat
  | _, k, 0 =>
    (.error (.exception "Max number of iterations reached. Process not fully edited."), k)
  | updated, k, rounds + 1 =>
    match intermediate_loop oracle k 3 with
    | (.error e, k') => (.error e, k')
    | (.ok response, k') =>
      match pyIn "stop" response with
      | .error e => (.error e, k')
      | .ok true => (.ok updated, k')
      | .ok false =>
        match attempt_loop lib oracle updated response k' 3 with
        | (.error e, k'', _) => (.error e, k'')
        | (.ok p', k'', _) => apply_intermediate_edits lib oracle p' k'' rounds

/-- `BpmnEditorService.edit_bpmn`: initial proposal, initial apply with
retries, then up to 7 intermediate rounds.  Result: `(outcome, total
number of facade calls made)`. -/
def edit_bpmn (lib : EditLib) (oracle : Oracle) (process : Json) :
    Except PyError Json × Nat :=
  match get_initial_edit_proposal oracle 0 with
  | (.error e, k, _) => (.error e, k)
  | (.ok proposal, k, _) =>
    match attempt_loop lib oracle process proposal k 3 with
    | (.error e, k', _) => (.error e, k')
    | (.ok p1, k', _) => apply_intermediate_edits lib oracle p1 k' 7

/-! ## Creation Orchestrator (`BpmnModelingService.create_bpmn`) -/

/-- The Python `AttributeError` message of `x.get` on a value of type
`tyname` that has no `get` attribute. -/
def msgNoGet (tyname : String) : String :=
  quoted tyname ++ " object has no attribute " ++ quoted "get"

/-- The retry loop of `BpmnModelingService.create_bpmn`.  The facade
call sits inside the `while` but *outside* the `try`, so a facade
exception propagates out immediately; the `try` wraps
`response["process"]` and `_validate_bpmn`.  Its bare `except Exception`
handler first computes
`process_info = "N/A" if response is None else response.get("process", "No process in response")`:
for a `None` or dict response this succeeds and the loop re-prompts, but
for any other response shape (text, list, boolean, number) the `.get`
attribute access raises an `AttributeError` inside the handler, which
propagates out of `create_bpmn` in place of the original error. -/
def create_bpmn_loop (oracle : Oracle) : Nat → Nat → Except PyError Json × Nat
  | k, 0 =>
    (.error (.exception "Max number of retries reached. Could not create the BPMN process."), k)
  | k, rem + 1 =>
    match oracle k with
    | .error e => (.error e, k + 1)
    | .ok response =>
      match (match getItem response "process" with
        | .error e => .error e
        | .ok p =>
          match validate_bpmn p with
          | .error e => .error e
          | .ok _ => .ok p
        : Except PyError Json) with
      | .ok p => (.ok p, k + 1)
      | .error _ =>
        match response with
        | .obj _ => create_bpmn_loop oracle (k + 1) rem
        | .null => create_bpmn_loop oracle (k + 1) rem
        | .str _ => (.error (.attributeError (msgNoGet "str")), k + 1)
        | .arr _ => (.error (.attributeError (msgNoGet "list")), k + 1)
        | .bool _ => (.error (.attributeError (msgNoGet "bool")), k + 1)
        | .num _ => (.error (.attributeError (msgNoGet "int")), k + 1)

/-- `BpmnModelingService.create_bpmn` with its default
`max_retries = 3`, starting at facade-call index `k`. -/
def create_bpmn (oracle : Oracle) (k : Nat) : Except PyError Json × Nat :=
  create_bpmn_loop oracle k 3


/-! ## Facade-call bounds for the edit orchestrator -/

theorem attempt_loop_calls_le (lib : EditLib) (oracle : Oracle) (process : Json) :
    ∀ (rem : Nat) (proposal : Json) (k : Nat),
      (attempt_loop lib oracle process proposal k rem).2.1 ≤ k + rem := by
  intro rem
  induction rem with
  | zero => intro proposal k; simp [attempt_loop]
  | succ n ih =>
    intro proposal k
    have H : ∀ np, (attempt_loop lib oracle process np (k + 1) n).2.1 ≤ k + 1 + n :=
      fun np => ih np (k + 1)
    simp only [attempt_loop]
    repeat' split
    all_goals simp
    all_goals try omega
    all_goals exact le_trans (H _) (by omega)

theorem initial_loop_calls_le (oracle : Oracle) :
    ∀ (rem : Nat) (response : Json) (k : Nat),
      (initial_loop oracle response k rem).2.1 ≤ k + rem := by
  intro rem
  induction rem with
  | zero => intro response k; simp [initial_loop]
  | succ n ih =>
    intro response k
    have H : ∀ r2, (initial_loop oracle r2 (k + 1) n).2.1 ≤ k + 1 + n :=
      fun r2 => ih r2 (k + 1)
    simp only [initial_loop]
    repeat' split
    all_goals simp
    all_goals try omega
    all_goals exact le_trans (H _) (by omega)

theorem intermediate_loop_calls_le (oracle : Oracle) :
    ∀ (rem k : Nat), (intermediate_loop oracle k rem).2 ≤ k + rem := by
  intro rem
  induction rem with
  | zero => intro k; simp [intermediate_loop]
  | succ n ih =>
    intro k
    have H := ih (k + 1)
    simp only [intermediate_loop]
    repeat' split
    all_goals simp
    all_goals omega

theorem apply_intermediate_edits_calls_le (lib : EditLib) (oracle : Oracle) :
    ∀ (rounds : Nat) (t : Json) (k : Nat),
      (apply_intermediate_edits lib oracle t k rounds).2 ≤ k + 6 * rounds := by
  intro rounds
  induction rounds with
  | zero => intro t k; simp [apply_intermediate_edits]
  | succ n ih =>
    intro t k
    have hil := intermediate_loop_calls_le oracle 3 k
    simp only [apply_intermediate_edits]
    split
    · rename_i e k' heq
      have : (intermediate_loop oracle k 3).2 = k' := by rw [heq]
      simp
      omega
    · rename_i response k' heq
      have hk' : (intermediate_loop oracle k 3).2 = k' := by rw [heq]
      have hal := attempt_loop_calls_le lib oracle t 3 response k'
      split
      all_goals simp
      all_goals try omega
      split
      · rename_i e k'' cnt heq2
        have : (attempt_loop lib oracle t response k' 3).2.1 = k'' := by rw [heq2]
        simp
        omega
      · rename_i p' k'' cnt heq2
        have hk'' : (attempt_loop lib oracle t response k' 3).2.1 = k'' := by rw [heq2]
        have := ih p' k''
        simp
        omega

theorem get_initial_calls_le (oracle : Oracle) (k : Nat) :
    (get_initial_edit_proposal oracle k).2.1 ≤ k + 4 := by
  simp only [get_initial_edit_proposal]
  split
  · simp
  · exact le_trans (initial_loop_calls_le oracle 3 _ (k + 1)) (by omega)

/-- C1: for every facade behaviour (any sequence of returned proposals
or raised errors) and every behaviour of the five edit transforms,
`edit_bpmn` terminates with a result — a process tree or a raised
terminal error — and the total number of facade calls it makes is at
most 49 = 4 (initial proposal: 1 fetch + 3 re-prompts) + 3 (initial
apply retries) + 7 × (3 + 3) (rounds × (proposal retries + apply
retries)); in particular it never loops unboundedly (it is a total
function of the facade behaviour). -/
theorem C1_edit_bpmn_total_and_call_bounded (lib : EditLib) (oracle : Oracle)
    (process : Json) :
    ((∃ t, (edit_bpmn lib oracle process).1 = .ok t) ∨
      (∃ e, (edit_bpmn lib oracle process).1 = .error e)) ∧
    (edit_bpmn lib oracle process).2 ≤ 49 := by
  constructor
  · cases h : (edit_bpmn lib oracle process).1 with
    | ok t => exact Or.inl ⟨t, rfl⟩
    | error e => exact Or.inr ⟨e, rfl⟩
  · have hgi := get_initial_calls_le oracle 0
    simp only [edit_bpmn]
    split
    · rename_i e k cnt heq
      have : (get_initial_edit_proposal oracle 0).2.1 = k := by rw [heq]
      omega
    · rename_i proposal k cnt heq
      have hk : (get_initial_edit_proposal oracle 0).2.1 = k := by rw [heq]
      have hal := attempt_loop_calls_le lib oracle process 3 proposal k
      split
      · rename_i e k' cnt' heq2
        have : (attempt_loop lib oracle process proposal k 3).2.1 = k' := by rw [heq2]
        omega
      · rename_i p1 k' cnt' heq2
        have hk' : (attempt_loop lib oracle process proposal k 3).2.1 = k' := by rw [heq2]
        have hae := apply_intermediate_edits_calls_le lib oracle 7 p1 k'
        omega

/-! ## Always-failing facades (C2) and stop behaviour (C3/C4/C10) -/

theorem attempt_loop_all_structural_fail (lib : EditLib) (oracle : Oracle)
    (process : Json) (p : Nat → Json)
    (h1 : ∀ n, oracle n = .ok (p n))
    (h3 : ∀ n, pyIn "stop" (p n) = .ok false)
    (h4 : ∀ n, ∃ m, update_process lib process (p n) = .error (.processException m)) :
    ∀ (rem k : Nat) (proposal : Json),
      (∃ m, update_process lib process proposal = .error (.processException m)) →
      attempt_loop lib oracle process proposal k rem =
        (.error (.exception "Max number of retries reached. Process not fully edited."),
          k + rem, rem) := by
  intro rem
  induction rem with
  | zero => intro k proposal _; rfl
  | succ n ih =>
    intro k proposal hprop
    obtain ⟨m, hm⟩ := hprop
    have hrec := ih (k + 1) (p k) (h4 k)
    simp only [attempt_loop, hm, PyError.isProcessException, h1 k, h3 k, hrec]
    have harith : k + 1 + n = k + (n + 1) := by omega
    simp [harith]

theorem initial_loop_all_schema_fail (oracle : Oracle) (q : Nat → Json)
    (h1 : ∀ n, oracle n = .ok (q n))
    (h2 : ∀ n, ∃ m, validate_llm_response (q n) true = .error (.valueError m)) :
    ∀ (rem k : Nat) (response : Json),
      (∃ m, validate_llm_response response true = .error (.valueError m)) →
      initial_loop oracle response k rem =
        (.error (.exception "Max number of retries reached."), k + rem, rem) := by
  intro rem
  induction rem with
  | zero => intro k response _; rfl
  | succ n ih =>
    intro k response hresp
    obtain ⟨m, hm⟩ := hresp
    have hrec := ih (k + 1) (q k) (h2 k)
    simp only [initial_loop, hm, PyError.isValueError, h1 k, hrec]
    have harith : k + 1 + n = k + (n + 1) := by omega
    simp [harith]

theorem initial_loop_valid (oracle : Oracle) (resp : Json) (k : Nat) (b : Bool)
    (h : validate_llm_response resp true = .ok b) :
    initial_loop oracle resp k 3 = (.ok resp, k, 1) := by
  simp only [initial_loop, h]

/-- C2: with a facade that always returns grammatically valid but
structurally inapplicable proposals, `edit_bpmn` raises the apply-layer
retry-cap error after exactly 3 apply attempts on the initial round
(4 facade calls in total); with a facade that always returns
grammatically invalid proposals, it raises the proposal-layer retry-cap
error after exactly 3 validation attempts (again 4 facade calls: the
initial fetch plus 3 re-prompts). -/
theorem C2_retry_caps_reach_failed (lib : EditLib) (process : Json) :
    (∀ (oracle : Oracle) (p : Nat → Json),
      (∀ n, oracle n = .ok (p n)) →
      (∀ n, validate_llm_response (p n) true = .ok true) →
      (∀ n, pyIn "stop" (p n) = .ok false) →
      (∀ n, ∃ m, update_process lib process (p n) = .error (.processException m)) →
      edit_bpmn lib oracle process =
        (.error (.exception "Max number of retries reached. Process not fully edited."), 4) ∧
      (attempt_loop lib oracle process (p 0) 1 3).2.2 = 3) ∧
    (∀ (oracle : Oracle) (q : Nat → Json),
      (∀ n, oracle n = .ok (q n)) →
      (∀ n, ∃ m, validate_llm_response (q n) true = .error (.valueError m)) →
      edit_bpmn lib oracle process =
        (.error (.exception "Max number of retries reached."), 4) ∧
      (get_initial_edit_proposal oracle 0).2.2 = 3) := by
  constructor
  · intro oracle p h1 h2 h3 h4
    have hgi : get_initial_edit_proposal oracle 0 = (.ok (p 0), 1, 1) := by
      simp only [get_initial_edit_proposal, h1 0, initial_loop_valid oracle (p 0) 1 true (h2 0)]
    have hal := attempt_loop_all_structural_fail lib oracle process p h1 h3 h4 3 1 (p 0) (h4 0)
    refine ⟨?_, by rw [hal]⟩
    simp only [edit_bpmn, hgi, hal]
  · intro oracle q h1 h2
    have hil := initial_loop_all_schema_fail oracle q h1 h2 3 1 (q 0) (h2 0)
    have hgi : get_initial_edit_proposal oracle 0 =
        (.error (.exception "Max number of retries reached."), 4, 3) := by
      simp only [get_initial_edit_proposal, h1 0, hil]
    refine ⟨?_, by rw [hgi]⟩
    simp only [edit_bpmn, hgi]

theorem validate_llm_response_stop (r : Json) (h : pyIn "stop" r = .ok true) :
    validate_llm_response r false = .ok true := by
  simp only [validate_llm_response, h, Bool.false_eq_true, if_false]
  simp

theorem intermediate_loop_valid (oracle : Oracle) (k : Nat) (r : Json) (b : Bool)
    (h1 : oracle k = .ok r) (h2 : validate_llm_response r false = .ok b) :
    intermediate_loop oracle k 3 = (.ok r, k + 1) := by
  simp only [intermediate_loop, h1, h2]

theorem apply_intermediate_edits_stop (lib : EditLib) (oracle : Oracle)
    (t : Json) (k rounds : Nat) (r : Json)
    (h1 : oracle k = .ok r) (h2 : pyIn "stop" r = .ok true) :
    apply_intermediate_edits lib oracle t k (rounds + 1) = (.ok t, k + 1) := by
  have hv := validate_llm_response_stop r h2
  have hil := intermediate_loop_valid oracle k r true h1 hv
  simp only [apply_intermediate_edits, hil, h2]

theorem attempt_loop_stop_mid_retry (lib : EditLib) (oracle : Oracle) (process : Json) :
    ∀ (j : Nat) (p : Nat → Json) (np proposal : Json) (k rem : Nat),
      (∃ m, update_process lib process proposal = .error (.processException m)) →
      (∀ i, i < j → oracle (k + i) = .ok (p i)) →
      (∀ i, i < j → pyIn "stop" (p i) = .ok false) →
      (∀ i, i < j → ∃ m, update_process lib process (p i) = .error (.processException m)) →
      oracle (k + j) = .ok np →
      pyIn "stop" np = .ok true →
      j < rem →
      attempt_loop lib oracle process proposal k rem = (.ok process, k + j + 1, j + 1) := by
  intro j
  induction j with
  | zero =>
    intro p np proposal k rem hprop _ _ _ hnp hstop hrem
    obtain ⟨m, hm⟩ := hprop
    match rem, hrem with
    | r + 1, _ =>
      rw [show k + 0 = k from rfl] at hnp
      simp only [attempt_loop, hm, PyError.isProcessException, hnp, hstop]
      simp
  | succ n ih =>
    intro p np proposal k rem hprop ho hs hu hnp hstop hrem
    obtain ⟨m, hm⟩ := hprop
    match rem, hrem with
    | r + 1, hr =>
      have h0 : oracle k = .ok (p 0) := by
        have := ho 0 (by omega)
        rwa [show k + 0 = k from rfl] at this
      have hs0 := hs 0 (by omega)
      have hrec : attempt_loop lib oracle process (p 0) (k + 1) r =
          (.ok process, k + 1 + n + 1, n + 1) := by
        refine ih (fun i => p (i + 1)) np (p 0) (k + 1) r (hu 0 (by omega)) ?_ ?_ ?_ ?_ hstop (by omega)
        · intro i hi
          have h := ho (i + 1) (by omega)
          rwa [show k + (i + 1) = k + 1 + i from by omega] at h
        · intro i hi
          exact hs (i + 1) (by omega)
        · intro i hi
          exact hu (i + 1) (by omega)
        · rwa [show k + (n + 1) = k + 1 + n from by omega] at hnp
      simp only [attempt_loop, hm, PyError.isProcessException, h0, hs0, hrec]
      have harith : k + 1 + n + 1 = k + (n + 1) + 1 := by omega
      simp [harith]

/-- A concrete edit library whose five transforms all fail with a
`ProcessException` (used to witness the always-structurally-invalid
facade scenario). -/
def witFailLib : EditLib :=
  ⟨fun _ _ => .error (.processException "Element not found"),
   fun _ _ => .error (.processException "Element not found"),
   fun _ _ => .error (.processException "Element not found"),
   fun _ _ => .error (.processException "Element not found"),
   fun _ _ => .error (.processException "Element not found")⟩

/-- A concrete edit library whose transforms succeed, returning the
input process unchanged wrapped as `\x7b"process": tree\x7d`. -/
def witOkLib : EditLib :=
  ⟨fun p _ => .ok (.obj [("process", p)]), fun p _ => .ok (.obj [("process", p)]),
   fun p _ => .ok (.obj [("process", p)]), fun p _ => .ok (.obj [("process", p)]),
   fun p _ => .ok (.obj [("process", p)])⟩

/-- A grammatically valid `delete_element` proposal. -/
def witDelProp : Json :=
  .obj [("function", .str "delete_element"), ("arguments", .obj [("element_id", .str "A")])]

/-- A grammatically invalid proposal (neither `function`/`arguments` nor `stop`). -/
def witBadProp : Json := .obj [("foo", .num 1)]

/-- A stop proposal. -/
def witStopProp : Json := .obj [("stop", .bool true)]

theorem C2_retry_caps_reach_failed_witness :
    (edit_bpmn witFailLib (fun _ => .ok witDelProp) (Json.arr []) =
        (.error (.exception "Max number of retries reached. Process not fully edited."), 4) ∧
      (attempt_loop witFailLib (fun _ => .ok witDelProp) (Json.arr []) witDelProp 1 3).2.2 = 3) ∧
    (edit_bpmn witFailLib (fun _ => .ok witBadProp) (Json.arr []) =
        (.error (.exception "Max number of retries reached."), 4) ∧
      (get_initial_edit_proposal (fun _ => .ok witBadProp) 0).2.2 = 3) :=
  ⟨(C2_retry_caps_reach_failed witFailLib (Json.arr [])).1
      (fun _ => .ok witDelProp) (fun _ => witDelProp)
      (fun _ => rfl) (fun _ => rfl) (fun _ => rfl)
      (fun _ => ⟨"Element not found", rfl⟩),
    (C2_retry_caps_reach_failed witFailLib (Json.arr [])).2
      (fun _ => .ok witBadProp) (fun _ => witBadProp)
      (fun _ => rfl) (fun _ => ⟨msgNeedFunctionOrStop, rfl⟩)⟩

theorem attempt_loop_first_success (lib : EditLib) (oracle : Oracle)
    (t r t' : Json) (k rem : Nat) (h : update_process lib t r = .ok t') :
    attempt_loop lib oracle t r k (rem + 1) = (.ok t', k, 1) := by
  simp only [attempt_loop, h]

theorem apply_intermediate_edits_no_stop (lib : EditLib) (oracle : Oracle)
    (hok : ∀ n, ∃ r, oracle n = .ok r)
    (hres : ∀ n r, oracle n = .ok r →
      validate_llm_response r false = .ok true ∧ pyIn "stop" r = .ok false ∧
      ∀ u, ∃ u', update_process lib u r = .ok u') :
    ∀ (rounds : Nat) (t : Json) (k : Nat),
      apply_intermediate_edits lib oracle t k rounds =
        (.error (.exception "Max number of iterations reached. Process not fully edited."),
          k + rounds) := by
  intro rounds
  induction rounds with
  | zero => intro t k; simp [apply_intermediate_edits]
  | succ n ih =>
    intro t k
    obtain ⟨r, hr⟩ := hok k
    obtain ⟨hv, hs, hup⟩ := hres k r hr
    obtain ⟨t', ht'⟩ := hup t
    have hil := intermediate_loop_valid oracle k r true hr hv
    have hal : attempt_loop lib oracle t r (k + 1) 3 = (.ok t', k + 1, 1) :=
      attempt_loop_first_success lib oracle t r t' (k + 1) 2 ht'
    simp only [apply_intermediate_edits, hil, hs, hal, ih t' (k + 1)]
    have harith : k + 1 + n = k + (n + 1) := by omega
    simp [harith]

/-- C3: a `stop` proposal fetched in any intermediate round ends the
loop immediately with the current tree as the result (one facade call
consumed); and if the facade never sends a stop signal (every response
is a valid, applicable, non-stop proposal), all 7 rounds complete and
the orchestrator raises the iteration-cap terminal error. -/
theorem C3_intermediate_round_ceiling :
    (∀ (lib : EditLib) (oracle : Oracle) (t : Json) (k rounds : Nat) (r : Json),
      oracle k = .ok r → pyIn "stop" r = .ok true →
      apply_intermediate_edits lib oracle t k (rounds + 1) = (.ok t, k + 1)) ∧
    (∀ (lib : EditLib) (oracle : Oracle) (t : Json) (k : Nat),
      (∀ n, ∃ r, oracle n = .ok r) →
      (∀ n r, oracle n = .ok r →
        validate_llm_response r false = .ok true ∧ pyIn "stop" r = .ok false ∧
        ∀ u, ∃ u', update_process lib u r = .ok u') →
      apply_intermediate_edits lib oracle t k 7 =
        (.error (.exception "Max number of iterations reached. Process not fully edited."),
          k + 7)) := by
  constructor
  · intro lib oracle t k rounds r h1 h2
    exact apply_intermediate_edits_stop lib oracle t k rounds r h1 h2
  · intro lib oracle t k hok hres
    exact apply_intermediate_edits_no_stop lib oracle hok hres 7 t k

theorem C3_intermediate_round_ceiling_witness :
    (apply_intermediate_edits witOkLib (fun _ => .ok witStopProp) (Json.arr []) 0 7 =
      (.ok (Json.arr []), 1)) ∧
    (apply_intermediate_edits witOkLib (fun _ => .ok witDelProp) (Json.arr []) 0 7 =
      (.error (.exception "Max number of iterations reached. Process not fully edited."), 7)) :=
  ⟨C3_intermediate_round_ceiling.1 witOkLib (fun _ => .ok witStopProp) (Json.arr []) 0 6
      witStopProp rfl rfl,
    C3_intermediate_round_ceiling.2 witOkLib (fun _ => .ok witDelProp) (Json.arr []) 0
      (fun _ => ⟨witDelProp, rfl⟩)
      (fun n r hr => by
        cases hr
        exact ⟨rfl, rfl, fun u => ⟨u, rfl⟩⟩)⟩

/-- C4: whenever the apply-retry loop sees a `stop` proposal mid-retry —
the proposal it was called with fails structurally, `j` further
re-prompted proposals fail structurally too, and the next re-prompted
proposal carries `"stop"` — it returns exactly the `process` argument it
was given at the start of the round (the pre-round tree; on the initial
round this is the pre-edit tree), after `j + 1` apply attempts. -/
theorem C4_stop_mid_retry_returns_pre_round_tree
    (lib : EditLib) (oracle : Oracle) (process : Json) (j : Nat) (p : Nat → Json)
    (np proposal : Json) (k rem : Nat)
    (hfail : ∃ m, update_process lib process proposal = .error (.processException m))
    (hmid : ∀ i, i < j → oracle (k + i) = .ok (p i) ∧ pyIn "stop" (p i) = .ok false ∧
      ∃ m, update_process lib process (p i) = .error (.processException m))
    (hnp : oracle (k + j) = .ok np)
    (hstop : pyIn "stop" np = .ok true)
    (hrem : j < rem) :
    attempt_loop lib oracle process proposal k rem = (.ok process, k + j + 1, j + 1) :=
  attempt_loop_stop_mid_retry lib oracle process j p np proposal k rem hfail
    (fun i hi => (hmid i hi).1) (fun i hi => (hmid i hi).2.1)
    (fun i hi => (hmid i hi).2.2) hnp hstop hrem

theorem C4_stop_mid_retry_returns_pre_round_tree_witness :
    attempt_loop witFailLib
      (fun n => if n == 2 then .ok witStopProp else .ok witDelProp)
      (Json.arr [Json.obj [("id", Json.str "keep"), ("type", Json.str "task"),
        ("label", Json.str "Keep")]])
      witDelProp 1 3 =
      (.ok (Json.arr [Json.obj [("id", Json.str "keep"), ("type", Json.str "task"),
        ("label", Json.str "Keep")]]), 3, 2) :=
  C4_stop_mid_retry_returns_pre_round_tree witFailLib
    (fun n => if n == 2 then .ok witStopProp else .ok witDelProp)
    (Json.arr [Json.obj [("id", Json.str "keep"), ("type", Json.str "task"),
      ("label", Json.str "Keep")]])
    1 (fun _ => witDelProp) witStopProp witDelProp 1 3
    ⟨"Element not found", rfl⟩
    (fun i hi => by
      match i, hi with
      | 0, _ => exact ⟨rfl, rfl, "Element not found", rfl⟩)
    rfl rfl (by omega)

/-- C10: in an intermediate round, a fetched response that contains the
key `"stop"` ends editing immediately with the current tree unchanged,
even when the same response also carries `"function"` and `"arguments"`
keys; the conclusion holds for every edit library, so the carried edit
operation is never applied. -/
theorem C10_stop_wins_over_function (lib : EditLib) (oracle : Oracle)
    (t : Json) (k rounds : Nat) (r : Json)
    (h1 : oracle k = .ok r)
    (hstop : pyIn "stop" r = .ok true)
    (hfn : pyIn "function" r = .ok true)
    (hargs : pyIn "arguments" r = .ok true) :
    apply_intermediate_edits lib oracle t k (rounds + 1) = (.ok t, k + 1) :=
  apply_intermediate_edits_stop lib oracle t k rounds r h1 hstop

theorem C10_stop_wins_over_function_witness :
    apply_intermediate_edits witOkLib
      (fun _ => .ok (Json.obj [("stop", .bool true),
        ("function", .str "delete_element"),
        ("arguments", .obj [("element_id", .str "A")])]))
      (Json.arr []) 0 7 = (.ok (Json.arr []), 1) :=
  C10_stop_wins_over_function witOkLib
    (fun _ => .ok (Json.obj [("stop", .bool true),
      ("function", .str "delete_element"),
      ("arguments", .obj [("element_id", .str "A")])]))
    (Json.arr []) 0 6
    (Json.obj [("stop", .bool true), ("function", .str "delete_element"),
      ("arguments", .obj [("element_id", .str "A")])])
    rfl rfl rfl rfl

/-- C5 (code finding): a proposal whose only key is `"stop"`, validated
as the very first proposal, is rejected — but by an uncaught `KeyError`
from the `response["function"]` subscript rather than a catchable
`ValueError`: the guard in `_validate_llm_response` does not raise when
`"stop"` is present, and `_get_initial_edit_proposal`'s
`except ValueError` does not catch `KeyError`, so the error aborts
`edit_bpmn` after one facade call with no re-prompt.  The same object
is accepted when validated with `accept_stop` (`is_first_edit = false`). -/
theorem C5_stop_only_first_proposal_raises_keyerror :
    validate_llm_response (Json.obj [("stop", .bool true)]) true =
      .error (.keyError "function") ∧
    validate_llm_response (Json.obj [("stop", .bool true)]) false = .ok true ∧
    get_initial_edit_proposal (fun _ => .ok (Json.obj [("stop", .bool true)])) 0 =
      (.error (.keyError "function"), 1, 1) ∧
    edit_bpmn witOkLib (fun _ => .ok (Json.obj [("stop", .bool true)])) (Json.arr []) =
      (.error (.keyError "function"), 1) :=
  ⟨rfl, rfl, rfl, rfl⟩

/-- C9 (code finding): facade failures are not uniformly folded into the
re-prompt cycle.  In `create_bpmn` the facade call sits inside the
`while` but *outside* the `try`: a facade exception (the embedded OpenAI
provider raises `ValueError("Empty response from OpenAI")` on empty
content) propagates out of `create_bpmn` after one call with no retry
consumed.  A facade call that *returns* unusable content splits further:
a dict without `"process"` is caught by the bare `except Exception` and
consumes a retry, exhausting the budget after 3 calls — but a text
response (which the facade contract allows) makes the handler's own
`response.get("process", ...)` raise an uncaught `AttributeError`,
aborting after one call.  In the editor's apply-retry loop the re-prompt
call sits inside the `except` handler, so a facade exception there also
propagates uncaught. -/
theorem C9_facade_raise_escapes_retry_cycle :
    create_bpmn (fun _ => .error (.valueError "Empty response from OpenAI")) 0 =
      (.error (.valueError "Empty response from OpenAI"), 1) ∧
    create_bpmn (fun _ => .ok (Json.obj [("notprocess", .null)])) 0 =
      (.error
        (.exception "Max number of retries reached. Could not create the BPMN process."), 3) ∧
    create_bpmn (fun _ => .ok (.str "plain text, not a JSON object")) 0 =
      (.error (.attributeError (msgNoGet "str")), 1) ∧
    attempt_loop witFailLib (fun _ => .error (.valueError "Empty response from OpenAI"))
      (Json.arr []) witDelProp 1 3 =
      (.error (.valueError "Empty response from OpenAI"), 2, 1) :=
  ⟨rfl, rfl, rfl, rfl⟩

/-! ## C6: the verb/required-key grammar -/

def editVerbs : List String :=
  ["delete_element", "redirect_branch", "add_element", "move_element", "update_element"]

/-- The spec's required-key table (§4.2): the argument keys are exactly
the verb's required key set (as a set — i.e. a permutation, since dict
keys are unique). -/
def specArgKeysOk : String → List String → Prop
  | "delete_element", ks => ks.Perm ["element_id"]
  | "redirect_branch", ks => ks.Perm ["branch_condition", "next_id"]
  | "add_element", ks => ks.Perm ["element", "before_id"] ∨ ks.Perm ["element", "after_id"]
  | "move_element", ks => ks.Perm ["element_id", "before_id"] ∨ ks.Perm ["element_id", "after_id"]
  | "update_element", ks => ks.Perm ["new_element"]
  | _, _ => False

theorem mem_len_one_iff_perm {a : String} {ks : List String} :
    (a ∈ ks ∧ ks.length ≤ 1) ↔ ks.Perm [a] := by
  constructor
  · rintro ⟨hm, hl⟩
    match ks, hm, hl with
    | [x], hm, _ =>
      simp at hm
      subst hm
      exact List.Perm.refl _
  · intro h
    exact ⟨h.mem_iff.mpr (by simp), by rw [h.length_eq]; simp⟩

theorem mem_pair_iff_perm {a b : String} {ks : List String} (hab : a ≠ b) :
    (a ∈ ks ∧ b ∈ ks ∧ ks.length ≤ 2) ↔ ks.Perm [a, b] := by
  constructor
  · rintro ⟨ha, hb, hl⟩
    match ks, ha, hb, hl with
    | [x], ha, hb, _ =>
      simp at ha hb
      exact absurd (ha.trans hb.symm) hab
    | [x, y], ha, hb, _ =>
      simp at ha hb
      rcases ha with rfl | rfl
      · rcases hb with rfl | rfl
        · exact absurd rfl hab
        · exact List.Perm.refl _
      · rcases hb with rfl | rfl
        · exact List.Perm.swap _ _ _
        · exact absurd rfl hab.symm
  · intro h
    exact ⟨h.mem_iff.mpr (by simp), h.mem_iff.mpr (by simp), by rw [h.length_eq]; simp⟩

theorem any_key_eq (args : List (String × Json)) (k : String) :
    (args.any (fun kv => kv.1 == k) = true) ↔ k ∈ args.map Prod.fst := by
  simp [List.any_eq_true, List.mem_map, beq_iff_eq]

theorem validate_fn_args (v : String) (args : List (String × Json)) (b : Bool) :
    validate_llm_response (Json.obj [("function", .str v), ("arguments", .obj args)]) b =
      checkVerbArgs (.str v) (.obj args) := by
  cases b <;> rfl

theorem checkVerbArgs_delete (args : List (String × Json)) :
    (checkVerbArgs (.str "delete_element") (.obj args) = .ok true) ↔
      ("element_id" ∈ args.map Prod.fst ∧ args.length ≤ 1) := by
  have hb : (Json.str "delete_element" == Json.str "delete_element") = true := rfl
  simp only [checkVerbArgs, hb, if_true, pyIn, pyLen]
  cases h : args.any (fun kv => kv.1 == "element_id") with
  | false =>
    have : ¬ ("element_id" ∈ args.map Prod.fst) := by
      rw [← any_key_eq]
      simp [h]
    simp [this]
  | true =>
    have hm : "element_id" ∈ args.map Prod.fst := (any_key_eq args "element_id").mp h
    by_cases hl : args.length > 1
    · simp [hl, hm]
    · simp [hl, hm]
      omega

theorem checkVerbArgs_redirect (args : List (String × Json)) :
    (checkVerbArgs (.str "redirect_branch") (.obj args) = .ok true) ↔
      ("branch_condition" ∈ args.map Prod.fst ∧ "next_id" ∈ args.map Prod.fst ∧
        args.length ≤ 2) := by
  have hb1 : (Json.str "redirect_branch" == Json.str "delete_element") = false := rfl
  have hb2 : (Json.str "redirect_branch" == Json.str "redirect_branch") = true := rfl
  simp only [checkVerbArgs, hb1, if_false, hb2, if_true, pyIn, pyLen]
  cases h1 : args.any (fun kv => kv.1 == "branch_condition") with
  | false =>
    have hn : ¬ ("branch_condition" ∈ args.map Prod.fst) := by
      rw [← any_key_eq]; simp [h1]
    simp [hn]
  | true =>
    have hm1 := (any_key_eq args "branch_condition").mp h1
    cases h2 : args.any (fun kv => kv.1 == "next_id") with
    | false =>
      have hn : ¬ ("next_id" ∈ args.map Prod.fst) := by
        rw [← any_key_eq]; simp [h2]
      simp [hn]
    | true =>
      have hm2 := (any_key_eq args "next_id").mp h2
      by_cases hl : args.length > 2
      · simp [hl, hm1, hm2]
      · simp [hl, hm1, hm2]
        omega

theorem checkVerbArgs_update (args : List (String × Json)) :
    (checkVerbArgs (.str "update_element") (.obj args) = .ok true) ↔
      ("new_element" ∈ args.map Prod.fst ∧ args.length ≤ 1) := by
  have hb1 : (Json.str "update_element" == Json.str "delete_element") = false := rfl
  have hb2 : (Json.str "update_element" == Json.str "redirect_branch") = false := rfl
  have hb3 : (Json.str "update_element" == Json.str "add_element") = false := rfl
  have hb4 : (Json.str "update_element" == Json.str "move_element") = false := rfl
  have hb5 : (Json.str "update_element" == Json.str "update_element") = true := rfl
  simp only [checkVerbArgs, hb1, hb2, hb3, hb4, hb5, if_false, if_true, pyIn, pyLen]
  cases h : args.any (fun kv => kv.1 == "new_element") with
  | false =>
    have hn : ¬ ("new_element" ∈ args.map Prod.fst) := by
      rw [← any_key_eq]; simp [h]
    simp [hn]
  | true =>
    have hm := (any_key_eq args "new_element").mp h
    by_cases hl : args.length > 1
    · simp [hl, hm]
    · simp [hl, hm]
      omega

theorem checkVerbArgs_add (args : List (String × Json)) :
    (checkVerbArgs (.str "add_element") (.obj args) = .ok true) ↔
      ("element" ∈ args.map Prod.fst ∧
        ¬("before_id" ∈ args.map Prod.fst ∧ "after_id" ∈ args.map Prod.fst) ∧
        ("before_id" ∈ args.map Prod.fst ∨ "after_id" ∈ args.map Prod.fst) ∧
        args.length ≤ 2) := by
  have hb1 : (Json.str "add_element" == Json.str "delete_element") = false := rfl
  have hb2 : (Json.str "add_element" == Json.str "redirect_branch") = false := rfl
  have hb3 : (Json.str "add_element" == Json.str "add_element") = true := rfl
  simp only [checkVerbArgs, hb1, hb2, hb3, if_false, if_true, pyIn, pyLen]
  cases h1 : args.any (fun kv => kv.1 == "element") with
  | false =>
    have hn : ¬ ("element" ∈ args.map Prod.fst) := by
      rw [← any_key_eq]; simp [h1]
    simp [hn]
  | true =>
    have hm1 := (any_key_eq args "element").mp h1
    cases h2 : args.any (fun kv => kv.1 == "before_id") with
    | false =>
      have hnb : ¬ ("before_id" ∈ args.map Prod.fst) := by
        rw [← any_key_eq]; simp [h2]
      cases h3 : args.any (fun kv => kv.1 == "after_id") with
      | false =>
        have hna : ¬ ("after_id" ∈ args.map Prod.fst) := by
          rw [← any_key_eq]; simp [h3]
        simp [hm1, hnb, hna]
      | true =>
        have hma := (any_key_eq args "after_id").mp h3
        by_cases hl : args.length > 2
        · simp [hl, hm1, hnb, hma]
        · simp [hl, hm1, hnb, hma]
          omega
    | true =>
      have hmb := (any_key_eq args "before_id").mp h2
      cases h3 : args.any (fun kv => kv.1 == "after_id") with
      | false =>
        have hna : ¬ ("after_id" ∈ args.map Prod.fst) := by
          rw [← any_key_eq]; simp [h3]
        by_cases hl : args.length > 2
        · simp [hl, hm1, hmb, hna]
        · simp [hl, hm1, hmb, hna]
          omega
      | true =>
        have hma := (any_key_eq args "after_id").mp h3
        simp [hm1, hmb, hma]

theorem checkVerbArgs_move (args : List (String × Json)) :
    (checkVerbArgs (.str "move_element") (.obj args) = .ok true) ↔
      ("element_id" ∈ args.map Prod.fst ∧
        ¬("before_id" ∈ args.map Prod.fst ∧ "after_id" ∈ args.map Prod.fst) ∧
        ("before_id" ∈ args.map Prod.fst ∨ "after_id" ∈ args.map Prod.fst) ∧
        args.length ≤ 2) := by
  have hb1 : (Json.str "move_element" == Json.str "delete_element") = false := rfl
  have hb2 : (Json.str "move_element" == Json.str "redirect_branch") = false := rfl
  have hb3 : (Json.str "move_element" == Json.str "add_element") = false := rfl
  have hb4 : (Json.str "move_element" == Json.str "move_element") = true := rfl
  simp only [checkVerbArgs, hb1, hb2, hb3, hb4, if_false, if_true, pyIn, pyLen]
  cases h1 : args.any (fun kv => kv.1 == "element_id") with
  | false =>
    have hn : ¬ ("element_id" ∈ args.map Prod.fst) := by
      rw [← any_key_eq]; simp [h1]
    simp [hn]
  | true =>
    have hm1 := (any_key_eq args "element_id").mp h1
    cases h2 : args.any (fun kv => kv.1 == "before_id") with
    | false =>
      have hnb : ¬ ("before_id" ∈ args.map Prod.fst) := by
        rw [← any_key_eq]; simp [h2]
      cases h3 : args.any (fun kv => kv.1 == "after_id") with
      | false =>
        have hna : ¬ ("after_id" ∈ args.map Prod.fst) := by
          rw [← any_key_eq]; simp [h3]
        simp [hm1, hnb, hna]
      | true =>
        have hma := (any_key_eq args "after_id").mp h3
        by_cases hl : args.length > 2
        · simp [hl, hm1, hnb, hma]
        · simp [hl, hm1, hnb, hma]
          omega
    | true =>
      have hmb := (any_key_eq args "before_id").mp h2
      cases h3 : args.any (fun kv => kv.1 == "after_id") with
      | false =>
        have hna : ¬ ("after_id" ∈ args.map Prod.fst) := by
          rw [← any_key_eq]; simp [h3]
        by_cases hl : args.length > 2
        · simp [hl, hm1, hmb, hna]
        · simp [hl, hm1, hmb, hna]
          omega
      | true =>
        have hma := (any_key_eq args "after_id").mp h3
        simp [hm1, hmb, hma]

theorem checkVerbArgs_unknown (v : String) (args : Json) (hv : v ∉ editVerbs) :
    checkVerbArgs (.str v) args = .error (.valueError (msgFnNotFound (.str v))) := by
  simp only [editVerbs, List.mem_cons, List.not_mem_nil, or_false, not_or] at hv
  obtain ⟨h1, h2, h3, h4, h5⟩ := hv
  have b1 : (Json.str v == Json.str "delete_element") = false := by
    simp [BEq.beq, jsonBeq]
    exact h1
  have b2 : (Json.str v == Json.str "redirect_branch") = false := by
    simp [BEq.beq, jsonBeq]
    exact h2
  have b3 : (Json.str v == Json.str "add_element") = false := by
    simp [BEq.beq, jsonBeq]
    exact h3
  have b4 : (Json.str v == Json.str "move_element") = false := by
    simp [BEq.beq, jsonBeq]
    exact h4
  have b5 : (Json.str v == Json.str "update_element") = false := by
    simp [BEq.beq, jsonBeq]
    exact h5
  simp [checkVerbArgs, b1, b2, b3, b4, b5]

theorem one_of_pair_iff_perm {a b c : String} {ks : List String}
    (hab : a ≠ b) (hac : a ≠ c) (hbc : b ≠ c) :
    (a ∈ ks ∧ ¬(b ∈ ks ∧ c ∈ ks) ∧ (b ∈ ks ∨ c ∈ ks) ∧ ks.length ≤ 2) ↔
      (ks.Perm [a, b] ∨ ks.Perm [a, c]) := by
  constructor
  · rintro ⟨ha, hnot, hor, hl⟩
    rcases hor with hb | hc
    · exact Or.inl ((mem_pair_iff_perm hab).mp ⟨ha, hb, hl⟩)
    · exact Or.inr ((mem_pair_iff_perm hac).mp ⟨ha, hc, hl⟩)
  · rintro (h | h)
    · have ha : a ∈ ks := h.mem_iff.mpr (by simp)
      have hb : b ∈ ks := h.mem_iff.mpr (by simp)
      have hc : c ∉ ks := by
        intro hcc
        have hm := h.mem_iff.mp hcc
        simp at hm
        rcases hm with rfl | rfl
        · exact hac rfl
        · exact hbc rfl
      exact ⟨ha, fun hp => hc hp.2, Or.inl hb, by rw [h.length_eq]; simp⟩
    · have ha : a ∈ ks := h.mem_iff.mpr (by simp)
      have hcmem : c ∈ ks := h.mem_iff.mpr (by simp)
      have hb : b ∉ ks := by
        intro hbb
        have hm := h.mem_iff.mp hbb
        simp at hm
        rcases hm with rfl | rfl
        · exact hab rfl
        · exact hbc rfl
      exact ⟨ha, fun hp => hb hp.1, Or.inr hcmem, by rw [h.length_eq]; simp⟩

/-- C6: for a proposal `\x7b"function": v, "arguments": args\x7d` (a dict,
so its key list has no duplicates), when `v` is one of the five verbs
the validator accepts iff the argument keys are exactly the verb's
required key set (`element_id` for delete; `branch_condition`/`next_id`
for redirect; `new_element` for update; `element` plus exactly one of
`before_id`/`after_id` for add; `element_id` plus exactly one of
`before_id`/`after_id` for move) — any extra key or both/neither of an
exactly-one-of pair is rejected; an unknown verb is rejected with an
error naming it. -/
theorem C6_verb_argument_grammar (v : String) (args : List (String × Json)) (b : Bool)
    (hnd : (args.map Prod.fst).Nodup) :
    (v ∈ editVerbs →
      ((validate_llm_response
          (Json.obj [("function", .str v), ("arguments", .obj args)]) b = .ok true) ↔
        specArgKeysOk v (args.map Prod.fst))) ∧
    (v ∉ editVerbs →
      validate_llm_response
          (Json.obj [("function", .str v), ("arguments", .obj args)]) b =
        .error (.valueError (msgFnNotFound (.str v)))) := by
  constructor
  · intro hv
    rw [validate_fn_args]
    simp only [editVerbs, List.mem_cons, List.not_mem_nil, or_false] at hv
    have hlen : args.length = (args.map Prod.fst).length := by simp
    rcases hv with rfl | rfl | rfl | rfl | rfl
    · rw [checkVerbArgs_delete, hlen]
      exact mem_len_one_iff_perm
    · rw [checkVerbArgs_redirect, hlen]
      exact mem_pair_iff_perm (by decide)
    · rw [checkVerbArgs_add, hlen]
      exact one_of_pair_iff_perm (by decide) (by decide) (by decide)
    · rw [checkVerbArgs_move, hlen]
      exact one_of_pair_iff_perm (by decide) (by decide) (by decide)
    · rw [checkVerbArgs_update, hlen]
      exact mem_len_one_iff_perm
  · intro hv
    rw [validate_fn_args]
    exact checkVerbArgs_unknown v _ hv

theorem C6_verb_argument_grammar_witness :
    (validate_llm_response (Json.obj [("function", .str "delete_element"),
        ("arguments", .obj [("element_id", .str "A")])]) true = .ok true) ∧
    (¬ (validate_llm_response (Json.obj [("function", .str "add_element"),
        ("arguments", .obj [("element", .null), ("before_id", .str "x"),
          ("after_id", .str "y")])]) true = .ok true)) ∧
    (validate_llm_response (Json.obj [("function", .str "frobnicate"),
        ("arguments", .obj [])]) true =
      .error (.valueError (msgFnNotFound (.str "frobnicate")))) := by
  refine ⟨?_, ?_, ?_⟩
  · exact ((C6_verb_argument_grammar "delete_element" [("element_id", .str "A")] true
      (by simp)).1 (by simp [editVerbs])).mpr (by simp only [specArgKeysOk]; decide)
  · intro hcontra
    have h := ((C6_verb_argument_grammar "add_element"
      [("element", .null), ("before_id", .str "x"), ("after_id", .str "y")] true
      (by simp)).1 (by simp [editVerbs])).mp hcontra
    simp only [specArgKeysOk] at h
    revert h
    decide
  · exact (C6_verb_argument_grammar "frobnicate" [] true (by simp)).2 (by simp [editVerbs])

/-! ## C7: the Process Validator rules -/

/-- A syntactically valid one-element process consisting of an
`exclusiveGateway` with a single branch whose `path` is `inner`. -/
def wrapEx (gid glabel cond : String) (inner : Json) : Json :=
  Json.arr [Json.obj [("id", .str gid), ("type", .str "exclusiveGateway"),
    ("label", .str glabel),
    ("branches", .arr [Json.obj [("condition", .str cond), ("path", inner)]])]]

/-- A syntactically valid one-element process consisting of a
`parallelGateway` with a single branch `inner`. -/
def wrapPar (gid : String) (inner : Json) : Json :=
  Json.arr [Json.obj [("id", .str gid), ("type", .str "parallelGateway"),
    ("branches", .arr [inner])]]

theorem jsonBeq_str_str (a b : String) : (Json.str a == Json.str b) = (a == b) := rfl

theorem validate_bpmn_wrapEx (gid glabel cond : String) (inner : Json) :
    validate_bpmn (wrapEx gid glabel cond inner) = validate_bpmn inner := by
  rw [wrapEx, validate_bpmn_arr, validateElems_cons]
  have hve : validate_element (Json.obj [("id", .str gid), ("type", .str "exclusiveGateway"),
      ("label", .str glabel),
      ("branches", .arr [Json.obj [("condition", .str cond), ("path", inner)]])]) = .ok () := rfl
  rw [hve]
  have hgr : gatewayRecurse (Json.obj [("id", .str gid), ("type", .str "exclusiveGateway"),
      ("label", .str glabel),
      ("branches", .arr [Json.obj [("condition", .str cond), ("path", inner)]])]) =
      exBranchPaths [Json.obj [("condition", .str cond), ("path", inner)]] :=
    gatewayRecurse_ex rfl rfl
  rw [hgr, exBranchPaths_cons]
  have hgi : getItem (Json.obj [("condition", .str cond), ("path", inner)]) "path" =
      .ok inner := rfl
  rw [hgi]
  cases hv : validate_bpmn inner with
  | error err => simp only [hv]
  | ok u =>
    cases u
    simp only [hv, exBranchPaths_nil, validateElems_nil]

theorem validate_bpmn_wrapPar (gid : String) (inner : Json) :
    validate_bpmn (wrapPar gid inner) = validate_bpmn inner := by
  rw [wrapPar, validate_bpmn_arr, validateElems_cons]
  have hve : validate_element (Json.obj [("id", .str gid), ("type", .str "parallelGateway"),
      ("branches", .arr [inner])]) = .ok () := rfl
  rw [hve]
  have hgr : gatewayRecurse (Json.obj [("id", .str gid), ("type", .str "parallelGateway"),
      ("branches", .arr [inner])]) = parBranches [inner] :=
    gatewayRecurse_par rfl rfl
  rw [hgr, parBranches_cons]
  cases hv : validate_bpmn inner with
  | error err => simp only [hv]
  | ok u =>
    cases u
    simp only [hv, parBranches_nil, validateElems_nil]

/-- C7: the Process Validator rejects any element missing `id` or
`type` or with an unrecognized type; rejects a task-like element without
`label`; rejects a gateway without `branches` (shown for both gateway
kinds); aborts at the first violating element in a sequence, returning
exactly that element's error (so its message names the offending element
and rule, see the `msg…` definitions); and recurses through
`exclusiveGateway` branch paths and `parallelGateway` branches at
arbitrary nesting depth — wrapping a process in `n` layers of
well-formed gateway never changes the verdict, so one invalid element
nested arbitrarily deep (e.g. three branches deep) invalidates the whole
tree with the inner element's own error. -/
theorem C7_process_validator_rules :
    (∀ fields : List (String × Json),
      pyIn "id" (Json.obj fields) = .ok false →
      validate_element (Json.obj fields) =
        .error (.exception (msgMissingId (Json.obj fields)))) ∧
    (∀ fields : List (String × Json),
      pyIn "id" (Json.obj fields) = .ok true →
      pyIn "type" (Json.obj fields) = .ok false →
      validate_element (Json.obj fields) =
        .error (.exception (msgMissingType (Json.obj fields)))) ∧
    (∀ (fields : List (String × Json)) (t : Json),
      pyIn "id" (Json.obj fields) = .ok true →
      pyIn "type" (Json.obj fields) = .ok true →
      getItem (Json.obj fields) "type" = .ok t →
      ((supportedElements.map Json.str).any (fun x => t == x)) = false →
      validate_element (Json.obj fields) = .error (.exception (msgUnsupported t))) ∧
    (∀ (fields : List (String × Json)) (t : Json),
      pyIn "id" (Json.obj fields) = .ok true →
      pyIn "type" (Json.obj fields) = .ok true →
      getItem (Json.obj fields) "type" = .ok t →
      (t = .str "task" ∨ t = .str "userTask" ∨ t = .str "serviceTask") →
      pyIn "label" (Json.obj fields) = .ok false →
      validate_element (Json.obj fields) =
        .error (.exception (msgTaskLabel (Json.obj fields)))) ∧
    (∀ fields : List (String × Json),
      pyIn "id" (Json.obj fields) = .ok true →
      pyIn "type" (Json.obj fields) = .ok true →
      getItem (Json.obj fields) "type" = .ok (.str "exclusiveGateway") →
      pyIn "label" (Json.obj fields) = .ok true →
      pyIn "branches" (Json.obj fields) = .ok false →
      validate_element (Json.obj fields) =
        .error (.exception (msgExBranches (Json.obj fields)))) ∧
    (∀ fields : List (String × Json),
      pyIn "id" (Json.obj fields) = .ok true →
      pyIn "type" (Json.obj fields) = .ok true →
      getItem (Json.obj fields) "type" = .ok (.str "parallelGateway") →
      pyIn "branches" (Json.obj fields) = .ok false →
      validate_element (Json.obj fields) =
        .error (.exception (msgParBranches (Json.obj fields)))) ∧
    (∀ (e : Json) (rest : List Json) (err : PyError),
      validate_element e = .error err →
      validateElems (e :: rest) = .error err) ∧
    (∀ (gid glabel cond : String) (inner : Json) (n : Nat),
      validate_bpmn ((wrapEx gid glabel cond)^[n] inner) = validate_bpmn inner) ∧
    (∀ (gid : String) (inner : Json) (n : Nat),
      validate_bpmn ((wrapPar gid)^[n] inner) = validate_bpmn inner) := by
  refine ⟨?_, ?_, ?_, ?_, ?_, ?_, ?_, ?_, ?_⟩
  · intro fields h
    simp only [validate_element, h]
    simp
  · intro fields h1 h2
    simp only [validate_element, h1, h2]
    simp
  · intro fields t h1 h2 h3 h4
    simp only [validate_element, h1, h2, h3, h4]
    simp
  · intro fields t h1 h2 h3 h4 h5
    have htl : ([Json.str "task", Json.str "userTask", Json.str "serviceTask"].any
        (fun x => t == x)) = true := by
      rcases h4 with rfl | rfl | rfl <;> rfl
    have hsup : ((supportedElements.map Json.str).any (fun x => t == x)) = true := by
      rcases h4 with rfl | rfl | rfl <;> rfl
    simp only [validate_element, h1, h2, h3, hsup, htl, h5]
    simp
  · intro fields h1 h2 h3 h4 h5
    simp only [validate_element, h1, h2, h3, h4, h5, getBranchesList]
    simp [supportedElements, jsonBeq_str_str]
  · intro fields h1 h2 h3 h4
    simp only [validate_element, h1, h2, h3, h4, getBranchesList]
    simp [supportedElements, jsonBeq_str_str]
  · intro e rest err h
    rw [validateElems_cons, h]
  · intro gid glabel cond inner n
    induction n with
    | zero => rfl
    | succ m ih =>
      rw [Function.iterate_succ_apply', validate_bpmn_wrapEx, ih]
  · intro gid inner n
    induction n with
    | zero => rfl
    | succ m ih =>
      rw [Function.iterate_succ_apply', validate_bpmn_wrapPar, ih]

theorem C7_process_validator_rules_witness :
    validate_element (Json.obj [("type", .str "task")]) =
      .error (.exception (msgMissingId (Json.obj [("type", .str "task")]))) ∧
    validate_element (Json.obj [("id", .str "a")]) =
      .error (.exception (msgMissingType (Json.obj [("id", .str "a")]))) ∧
    validate_element (Json.obj [("id", .str "a"), ("type", .str "weird")]) =
      .error (.exception (msgUnsupported (.str "weird"))) ∧
    validate_element (Json.obj [("id", .str "a"), ("type", .str "task")]) =
      .error (.exception (msgTaskLabel (Json.obj [("id", .str "a"), ("type", .str "task")]))) ∧
    validate_element (Json.obj [("id", .str "g"), ("type", .str "exclusiveGateway"),
        ("label", .str "G")]) =
      .error (.exception (msgExBranches (Json.obj [("id", .str "g"),
        ("type", .str "exclusiveGateway"), ("label", .str "G")]))) ∧
    validate_element (Json.obj [("id", .str "g"), ("type", .str "parallelGateway")]) =
      .error (.exception (msgParBranches (Json.obj [("id", .str "g"),
        ("type", .str "parallelGateway")]))) ∧
    validateElems [Json.obj [("type", .str "task")],
        Json.obj [("id", .str "b"), ("type", .str "task"), ("label", .str "B")]] =
      .error (.exception (msgMissingId (Json.obj [("type", .str "task")]))) ∧
    validate_bpmn ((wrapEx "g" "G" "c")^[3] (Json.arr [Json.obj [("id", .str "bad")]])) =
      .error (.exception (msgMissingType (Json.obj [("id", .str "bad")]))) := by
  refine ⟨C7_process_validator_rules.1 _ rfl,
    C7_process_validator_rules.2.1 _ rfl rfl,
    C7_process_validator_rules.2.2.1 _ (.str "weird") rfl rfl rfl rfl,
    C7_process_validator_rules.2.2.2.1 _ (.str "task") rfl rfl rfl (Or.inl rfl) rfl,
    C7_process_validator_rules.2.2.2.2.1 _ rfl rfl rfl rfl rfl,
    C7_process_validator_rules.2.2.2.2.2.1 _ rfl rfl rfl rfl,
    C7_process_validator_rules.2.2.2.2.2.2.1 _ _ _ (C7_process_validator_rules.1 _ rfl),
    ?_⟩
  have hinner : validate_bpmn (Json.arr [Json.obj [("id", .str "bad")]]) =
      .error (.exception (msgMissingType (Json.obj [("id", .str "bad")]))) := by
    rw [validate_bpmn_arr]
    exact C7_process_validator_rules.2.2.2.2.2.2.1 _ _ _
      (C7_process_validator_rules.2.1 _ rfl rfl)
  exact (C7_process_validator_rules.2.2.2.2.2.2.2.1 "g" "G" "c" _ 3).trans hinner

/-! ## C8: labels of task-like elements in accepted trees -/

/-- The element's `type` is one of the task-like types
(`task`/`userTask`/`serviceTask`). -/
def isTaskLike (e : Json) : Bool :=
  match getItem e "type" with
  | .ok t => [Json.str "task", Json.str "userTask", Json.str "serviceTask"].any
      (fun x => t == x)
  | .error _ => false

/-- The element carries a `"label"` key. -/
def hasLabel (e : Json) : Bool :=
  match pyIn "label" e with
  | .ok b => b
  | .error _ => false

theorem validate_element_ok_label {e : Json} (h : validate_element e = .ok ())
    (ht : isTaskLike e = true) : hasLabel e = true := by
  unfold validate_element at h
  unfold isTaskLike at ht
  unfold hasLabel
  cases h1 : pyIn "id" e with
  | error err => rw [h1] at h; simp at h
  | ok idIn =>
    simp only [h1] at h
    cases idIn with
    | false => simp at h
    | true =>
      simp only [Bool.not_true, Bool.false_eq_true, if_false] at h
      cases h2 : pyIn "type" e with
      | error err => rw [h2] at h; simp at h
      | ok tyIn =>
        simp only [h2] at h
        cases tyIn with
        | false => simp at h
        | true =>
          simp only [Bool.not_true, Bool.false_eq_true, if_false] at h
          cases h3 : getItem e "type" with
          | error err => rw [h3] at ht; simp at ht
          | ok t =>
            simp only [h3] at h ht
            cases h4 : ((supportedElements.map Json.str).any (fun x => t == x)) with
            | false => simp only [h4] at h; simp at h
            | true =>
              simp only [h4, Bool.not_true, Bool.false_eq_true, if_false] at h
              simp only [ht, if_true] at h
              cases h5 : pyIn "label" e with
              | error err => rw [h5] at h; simp at h
              | ok lIn =>
                simp only [h5] at h
                cases lIn with
                | false => simp at h
                | true => rfl

theorem validate_ok_elems_bounded :
    ∀ n : Nat,
      (∀ j : Json, sizeOf j ≤ n → validate_bpmn j = .ok () →
        ∀ e ∈ elemsOfJson j, validate_element e = .ok ()) ∧
      (∀ l : List Json, sizeOf l ≤ n → validateElems l = .ok () →
        ∀ e ∈ elemsOfList l, validate_element e = .ok ()) ∧
      (∀ l : List Json, sizeOf l ≤ n → exBranchPaths l = .ok () →
        ∀ e ∈ exPathElems l, validate_element e = .ok ()) ∧
      (∀ l : List Json, sizeOf l ≤ n → parBranches l = .ok () →
        ∀ e ∈ parBranchElems l, validate_element e = .ok ()) := by
  intro n
  induction n using Nat.strong_induction_on with
  | _ n IH =>
    refine ⟨?_, ?_, ?_, ?_⟩
    · intro j hsz hval e he
      cases j with
      | arr xs =>
        rw [validate_bpmn_arr] at hval
        rw [elemsOfJson_arr] at he
        have hx : sizeOf xs < sizeOf (Json.arr xs) := by simp
        exact (IH (sizeOf xs) (by omega)).2.1 xs (le_refl _) hval e he
      | null => rw [elemsOfJson.eq_def] at he; simp at he
      | bool b => rw [elemsOfJson.eq_def] at he; simp at he
      | num m => rw [elemsOfJson.eq_def] at he; simp at he
      | str s => rw [elemsOfJson.eq_def] at he; simp at he
      | obj fs => rw [elemsOfJson.eq_def] at he; simp at he
    · intro l hsz hval e he
      cases l with
      | nil => rw [elemsOfList_nil] at he; simp at he
      | cons x rest =>
        rw [validateElems_cons] at hval
        cases h1 : validate_element x with
        | error err => rw [h1] at hval; simp at hval
        | ok u =>
          cases u
          simp only [h1] at hval
          cases h2 : gatewayRecurse x with
          | error err => rw [h2] at hval; simp at hval
          | ok u2 =>
            cases u2
            simp only [h2] at hval
            rw [elemsOfList_cons] at he
            simp only [List.mem_cons, List.mem_append] at he
            have hszx : sizeOf x < sizeOf (x :: rest) := by simp <;> omega
            have hszr : sizeOf rest < sizeOf (x :: rest) := by simp <;> omega
            rcases he with rfl | he | he
            · exact h1
            · -- e comes from the branches of the gateway x
              rw [gatewayRecurse_eq] at h2
              rw [gatewayElems_eq] at he
              cases h3 : getItem x "type" with
              | error err => rw [h3] at he; simp at he
              | ok t =>
                simp only [h3] at h2 he
                have hszt := sizeOf_getItem_ok h3
                cases hbex : (t == Json.str "exclusiveGateway") with
                | true =>
                  simp only [hbex, if_true] at h2 he
                  cases h4 : getItem x "branches" with
                  | error err => rw [h4] at h2; simp [exGatewayBody] at h2
                  | ok bj =>
                    simp only [h4] at h2 he
                    have hszb := sizeOf_getItem_ok h4
                    cases bj with
                    | arr bs =>
                      simp only [exGatewayBody] at h2
                      have hszbs : sizeOf bs < sizeOf (Json.arr bs) := by simp
                      have hn : sizeOf bs < n := by
                        simp at hszb hszx hsz
                        omega
                      exact (IH (sizeOf bs) hn).2.2.1 bs (le_refl _) h2 e he
                    | null => simp at he
                    | bool b => simp at he
                    | num m => simp at he
                    | str s => simp at he
                    | obj fs => simp at he
                | false =>
                  simp only [hbex, Bool.false_eq_true, if_false] at h2 he
                  cases hbpar : (t == Json.str "parallelGateway") with
                  | true =>
                    simp only [hbpar, if_true] at h2 he
                    cases h4 : getItem x "branches" with
                    | error err => rw [h4] at h2; simp [parGatewayBody] at h2
                    | ok bj =>
                      simp only [h4] at h2 he
                      have hszb := sizeOf_getItem_ok h4
                      cases bj with
                      | arr bs =>
                        simp only [parGatewayBody] at h2
                        have hn : sizeOf bs < n := by
                          simp at hszb hszx hsz
                          omega
                        exact (IH (sizeOf bs) hn).2.2.2 bs (le_refl _) h2 e he
                      | null => simp at he
                      | bool b => simp at he
                      | num m => simp at he
                      | str s => simp at he
                      | obj fs => simp at he
                  | false =>
                    simp only [hbpar, Bool.false_eq_true, if_false] at he
                    simp at he
            · have hn : sizeOf rest < n := by
                simp at hsz hszr
                omega
              exact (IH (sizeOf rest) hn).2.1 rest (le_refl _) hval e he
    · intro l hsz hval e he
      cases l with
      | nil => rw [exPathElems.eq_def] at he; simp at he
      | cons b rest =>
        rw [exBranchPaths_cons] at hval
        rw [exPathElems_cons] at he
        simp only [List.mem_append] at he
        have hszb : sizeOf b < sizeOf (b :: rest) := by simp <;> omega
        have hszr : sizeOf rest < sizeOf (b :: rest) := by simp <;> omega
        cases h1 : getItem b "path" with
        | error err =>
          rw [h1] at hval
          simp at hval
        | ok p =>
          simp only [h1] at hval he
          have hszp := sizeOf_getItem_ok h1
          cases h2 : validate_bpmn p with
          | error err => rw [h2] at hval; simp at hval
          | ok u =>
            cases u
            simp only [h2] at hval
            rcases he with he | he
            · have hn : sizeOf p < n := by omega
              exact (IH (sizeOf p) hn).1 p (le_refl _) h2 e he
            · have hn : sizeOf rest < n := by omega
              exact (IH (sizeOf rest) hn).2.2.1 rest (le_refl _) hval e he
    · intro l hsz hval e he
      cases l with
      | nil => rw [parBranchElems.eq_def] at he; simp at he
      | cons b rest =>
        rw [parBranches_cons] at hval
        rw [parBranchElems_cons] at he
        simp only [List.mem_append] at he
        have hszb : sizeOf b < sizeOf (b :: rest) := by simp <;> omega
        have hszr : sizeOf rest < sizeOf (b :: rest) := by simp <;> omega
        cases h2 : validate_bpmn b with
        | error err => rw [h2] at hval; simp at hval
        | ok u =>
          cases u
          simp only [h2] at hval
          rcases he with he | he
          · have hn : sizeOf b < n := by omega
            exact (IH (sizeOf b) hn).1 b (le_refl _) h2 e he
          · have hn : sizeOf rest < n := by omega
            exact (IH (sizeOf rest) hn).2.2.2 rest (le_refl _) hval e he

/-- C8 counterexample: the claim "validation fails for any task-like
element whose label is absent or is the empty string" is false on the
code — `_validate_element` only checks that `"label"` is *present*.  A
tree whose single task has `label = ""` is accepted in full. -/
theorem C8_empty_label_accepted_counterexample :
    validate_bpmn (Json.arr [Json.obj [("id", .str "a"), ("type", .str "task"),
      ("label", .str "")]]) = .ok () ∧
    isTaskLike (Json.obj [("id", .str "a"), ("type", .str "task"), ("label", .str "")]) =
      true ∧
    getItem (Json.obj [("id", .str "a"), ("type", .str "task"), ("label", .str "")])
      "label" = .ok (.str "") := by
  refine ⟨?_, rfl, rfl⟩
  rw [validate_bpmn_arr, validateElems_cons]
  have h1 : validate_element (Json.obj [("id", .str "a"), ("type", .str "task"),
      ("label", .str "")]) = .ok () := rfl
  have h2 : gatewayRecurse (Json.obj [("id", .str "a"), ("type", .str "task"),
      ("label", .str "")]) = .ok () :=
    gatewayRecurse_nongateway (t := .str "task") rfl rfl rfl
  simp only [h1, h2, validateElems_nil]

/-- C8 (amended): every task-like element of a tree accepted by the
Process Validator carries a `"label"` key — presence only: the label
value is unconstrained (the empty string is accepted, see the
counterexample), and a task-like element with no `"label"` key at all
is rejected with the task-label error. -/
theorem C8_accepted_task_likes_have_label_key :
    (∀ p : Json, validate_bpmn p = .ok () →
      ∀ e ∈ elemsOfJson p, isTaskLike e = true → hasLabel e = true) ∧
    (∀ (fields : List (String × Json)) (t : Json),
      pyIn "id" (Json.obj fields) = .ok true →
      pyIn "type" (Json.obj fields) = .ok true →
      getItem (Json.obj fields) "type" = .ok t →
      (t = .str "task" ∨ t = .str "userTask" ∨ t = .str "serviceTask") →
      pyIn "label" (Json.obj fields) = .ok false →
      validate_element (Json.obj fields) =
        .error (.exception (msgTaskLabel (Json.obj fields)))) := by
  constructor
  · intro p hval e he ht
    exact validate_element_ok_label
      ((validate_ok_elems_bounded (sizeOf p)).1 p (le_refl _) hval e he) ht
  · intro fields t h1 h2 h3 h4 h5
    have htl : ([Json.str "task", Json.str "userTask", Json.str "serviceTask"].any
        (fun x => t == x)) = true := by
      rcases h4 with rfl | rfl | rfl <;> rfl
    have hsup : ((supportedElements.map Json.str).any (fun x => t == x)) = true := by
      rcases h4 with rfl | rfl | rfl <;> rfl
    simp only [validate_element, h1, h2, h3, hsup, htl, h5]
    simp

theorem C8_accepted_task_likes_have_label_key_witness :
    hasLabel (Json.obj [("id", .str "a"), ("type", .str "task"), ("label", .str "T")]) =
      true ∧
    validate_element (Json.obj [("id", .str "a"), ("type", .str "task")]) =
      .error (.exception (msgTaskLabel (Json.obj [("id", .str "a"), ("type", .str "task")]))) := by
  constructor
  · have hval : validate_bpmn (Json.arr [Json.obj [("id", .str "a"), ("type", .str "task"),
        ("label", .str "T")]]) = .ok () := by
      rw [validate_bpmn_arr, validateElems_cons]
      have h1 : validate_element (Json.obj [("id", .str "a"), ("type", .str "task"),
          ("label", .str "T")]) = .ok () := rfl
      have h2 : gatewayRecurse (Json.obj [("id", .str "a"), ("type", .str "task"),
          ("label", .str "T")]) = .ok () :=
        gatewayRecurse_nongateway (t := .str "task") rfl rfl rfl
      simp only [h1, h2, validateElems_nil]
    have hmem : (Json.obj [("id", .str "a"), ("type", .str "task"), ("label", .str "T")]) ∈
        elemsOfJson (Json.arr [Json.obj [("id", .str "a"), ("type", .str "task"),
          ("label", .str "T")]]) := by
      have hge : gatewayElems (Json.obj [("id", .str "a"), ("type", .str "task"),
          ("label", .str "T")]) = [] := by
        rw [gatewayElems_eq]
        rfl
      rw [elemsOfJson_arr, elemsOfList_cons, elemsOfList_nil, hge]
      simp
    exact C8_accepted_task_likes_have_label_key.1 _ hval _ hmem rfl
  · exact C8_accepted_task_likes_have_label_key.2 _ (.str "task") rfl rfl rfl (Or.inl rfl) rfl
